import Mathlib

/-!
BioSentiers backend: user validation, user creation and update, authentication.

A shallow embedding of `server/api/users/users.api.js` (the `create` and `update`
handlers and the `validateUser` schema), of `server/api/users/users.validations.js`,
and of the authentication endpoint exercised by `server/api/auth/auth.api.spec.js`.

JavaScript values are modelled by `JSVal`; numbers are integers (the counters and
timestamps handled here are integral) plus `NaN`.
-/

namespace Biosentiers

/-! ## JavaScript values -/

/-- JavaScript values found in request bodies, token claims and record attributes.
Arrays and objects are kept abstract: only their type is ever inspected. -/
inductive JSVal where
  | undefined
  | null
  | bool (b : Bool)
  | num (n : Int)
  | nan
  | str (s : String)
  | arr
  | obj
  deriving DecidableEq, Repr, Inhabited

namespace JSVal

/-- JavaScript truthiness (the value as a condition of `!`, `&&`, `||`). -/
def truthy : JSVal → Bool
  | undefined => false
  | null => false
  | bool b => b
  | num n => n != 0
  | nan => false
  | str s => s != ""
  | arr => true
  | obj => true

/-- Lodash `_.isNumber`: true of every number, `NaN` included. -/
def isNumber : JSVal → Bool
  | num _ => true
  | nan => true
  | _ => false

/-- Lodash `_.isString`. -/
def isString : JSVal → Bool
  | str _ => true
  | _ => false

/-- The comparison `v < 0` for a value that is a number (`NaN < 0` is false). -/
def ltZero : JSVal → Bool
  | num n => n < 0
  | _ => false

/-- Strict equality `===`. `NaN` equals nothing; two arrays or objects of distinct
provenance are never the same reference. -/
def strictEq : JSVal → JSVal → Bool
  | undefined, undefined => true
  | null, null => true
  | bool a, bool b => a == b
  | num a, num b => a == b
  | str a, str b => a == b
  | _, _ => false

/-- Strict inequality `!==`. -/
def strictNe (a b : JSVal) : Bool := !(strictEq a b)

/-- Whether a value has the given type name, as the `type` validator sees it. -/
def hasType (t : String) : JSVal → Bool
  | bool _ => t == "boolean"
  | num _ => t == "number"
  | nan => t == "number"
  | str _ => t == "string"
  | arr => t == "array"
  | obj => t == "object"
  | _ => false

end JSVal

/-- White space as removed by JavaScript `String.prototype.trim`. -/
def isJSWhitespace (c : Char) : Bool :=
  let n := c.toNat
  n == 9 || n == 10 || n == 11 || n == 12 || n == 13 || n == 32 || n == 160 ||
  n == 5760 || (8192 ≤ n && n ≤ 8202) || n == 8232 || n == 8233 || n == 8239 ||
  n == 8287 || n == 12288 || n == 65279

/-- The test `_.isEmpty(s.trim())`: the string holds white space only. -/
def isBlank (s : String) : Bool := s.data.all isJSWhitespace

/-- JavaScript `s.length`: the number of UTF-16 code units. -/
def jsLength (s : String) : Nat :=
  (s.data.map (fun c => if c.toNat < 65536 then 1 else 2)).sum

/-- A parsed JSON request body: an object, as a list of members. -/
abbrev Body := List (String × JSVal)

/-- Whether the body has a member of that name (`valueSet` of a JSON pointer). -/
def Body.has (b : Body) (key : String) : Bool := (b.lookup key).isSome

/-- Property access `body.key`: `undefined` when the member is absent. -/
def Body.get (b : Body) (key : String) : JSVal := (b.lookup key).getD JSVal.undefined

/-! ## The validation engine -/

/-- One entry of a 422 response, with the members the tests of
`auth.api.spec.js` expect. -/
structure ValidationError where
  message : String
  type : String
  location : String
  validator : String
  value : JSVal
  valueSet : Bool
  deriving DecidableEq, Repr

/-- An error about a member of the JSON body (`type: "json"`). -/
def jsonError (location validator message : String) (value : JSVal) (valueSet : Bool) :
    ValidationError :=
  { message := message, type := "json", location := location, validator := validator,
    value := value, valueSet := valueSet }

/-- The errors of a response that are reported at one location. -/
def errorsAt (location : String) (errors : List ValidationError) : List ValidationError :=
  errors.filter (fun e => e.location == location)

/-- The errors of a response that come from one validator. -/
def errorsOf (validator : String) (errors : List ValidationError) : List ValidationError :=
  errors.filter (fun e => e.validator == validator)

/-- Modelled from the spec: the validation context that is absent from the sources
(§4.1, §9: "parsed body snapshot + accumulated errors-so-far"). It holds the request
body, the location and value under validation, the errors collected so far and
whether a `while` gate has stopped the current chain. -/
structure Context where
  root : Body
  location : String
  value : JSVal
  valueSet : Bool
  errors : List ValidationError
  halted : Bool
  deriving Repr

/-- A validator reads the context and may add errors to it. -/
abbrev Validator := Context → Context

/-- Modelled from the spec: `context.addError`, absent from the sources; the error
records the current location and value (§3 "Validation Error"). -/
def addError (validator message : String) : Validator := fun ctx =>
  { ctx with errors := ctx.errors ++
      [jsonError ctx.location validator message ctx.value ctx.valueSet] }

/-- The member name addressed by a one-segment JSON pointer such as `/email`. -/
def pointerKey (pointer : String) : String := String.mk (pointer.data.drop 1)

/-- Modelled from the spec: `this.json(pointer)`, absent from the sources; it moves
the context to the member of the body at that location (§3 "a path into the request
body"). -/
def json (pointer : String) : Validator := fun ctx =>
  { ctx with location := pointer, value := ctx.root.get (pointerKey pointer),
             valueSet := ctx.root.has (pointerKey pointer) }

/-- Modelled from the spec: the condition `this.isSet()`, absent from the sources: the
value under validation is present (§4.1 "`isSet()` (present)"). -/
def isSet : Context → Bool := fun ctx => ctx.valueSet

/-- Modelled from the spec: the condition `this.noError({ location })`, absent from
the sources: a predicate "over already-collected partial results" (§4.1), true when no
error has been collected at that location. -/
def noError (location : String) : Context → Bool := fun ctx =>
  ctx.errors.all (fun e => e.location != location)

/-- Modelled from the spec: `this.while(condition)`, absent from the sources;
"`while(predicate)` gates an entire chain" (§4.1). -/
def while_ (condition : Context → Bool) : Validator := fun ctx =>
  if condition ctx then ctx else { ctx with halted := true }

/-- Modelled from the spec: the validators handed to `this.if`, run one after the
other until a `while` gate closes; the short-circuit on errors belongs to field
chains only (§4.1). -/
def series : List Validator → Validator
  | [], ctx => ctx
  | v :: vs, ctx =>
    let ctx1 := v ctx
    if ctx1.halted then ctx1 else series vs ctx1

/-- Modelled from the spec: `this.if(condition, ...validators)`, absent from the
sources; the validators run only when the condition holds of the partial results
(§4.1). -/
def if_ (condition : Context → Bool) (validators : List Validator) : Validator := fun ctx =>
  if condition ctx then series validators ctx else ctx

/-- Modelled from the spec: whether a check has failed "for that same field" (§4.1),
that is, whether an error has been collected at the current location. -/
def hasErrorHere (ctx : Context) : Bool :=
  ctx.errors.any (fun e => e.location == ctx.location)

/-- Modelled from the spec: the checks of one field chain "short-circuit
left-to-right: once a check fails, later checks for that same field do not run"
(§4.1); a closed `while` gate stops the chain as well. -/
def chain : List Validator → Validator
  | [], ctx => ctx
  | v :: vs, ctx =>
    let ctx1 := v ctx
    if ctx1.halted || hasErrorHere ctx1 then ctx1 else chain vs ctx1

/-- Modelled from the spec: `this.validate(...validators)`, absent from the sources;
a chain run in a child context, whose errors are handed back to the parent. -/
def validate (validators : List Validator) : Validator := fun ctx =>
  let child := chain validators { ctx with halted := false }
  { ctx with errors := child.errors }

/-- The errors a validator adds when started from a context. -/
def newErrors (v : Validator) (ctx : Context) : List ValidationError :=
  (v ctx).errors.drop ctx.errors.length

/-- Modelled from the spec: `this.parallel(...validators)` under a completion order,
absent from the sources. Every branch starts from the same context; when it
completes, its errors are stored under its declaration index, and the stored lists
are merged in declaration order (§4.1 "Error ordering", §5). -/
def parallelIn (order : List Nat) (validators : List Validator) : Validator := fun ctx =>
  let slots := order.foldl
    (fun slots i =>
      match validators[i]? with
      | some v => slots.set i (newErrors v ctx)
      | none => slots)
    (List.replicate validators.length [])
  { ctx with errors := ctx.errors ++ slots.flatten }

/-- Modelled from the spec: `this.parallel(...validators)`, with the branches
completing in declaration order. -/
def parallel (validators : List Validator) : Validator :=
  parallelIn (List.range validators.length) validators

/-- Modelled from the spec: `required` "fails if value absent" (§4.1); the message is
that of the tests. -/
def required : Validator := fun ctx =>
  if ctx.valueSet then ctx else addError "required" "is required" ctx

/-- Modelled from the spec: `type(T)` "fails if present value's runtime type ≠ T"
(§4.1). -/
def type (t : String) : Validator := fun ctx =>
  if ctx.valueSet && !(ctx.value.hasType t) then
    addError "type" ("must be of type " ++ t) ctx
  else ctx

/-- Modelled from the spec: `notBlank`, a string content check (§4.1): a string of
white space only fails. -/
def notBlank : Validator := fun ctx =>
  match ctx.value with
  | JSVal.str s => if isBlank s then addError "notBlank" "must not be blank" ctx else ctx
  | _ => ctx

/-- Modelled from the spec: `notEmpty`, a string content check (§4.1): the empty
string fails. -/
def notEmpty : Validator := fun ctx =>
  match ctx.value with
  | JSVal.str s => if s == "" then addError "notEmpty" "must not be empty" ctx else ctx
  | _ => ctx

/-- Modelled from the spec: `string(min,max)`, length bounds (§4.1). -/
def string (min max : Nat) : Validator := fun ctx =>
  match ctx.value with
  | JSVal.str s =>
    if jsLength s < min || max < jsLength s then
      addError "string" "must be a string of the expected length" ctx
    else ctx
  | _ => ctx

/-- Modelled from the spec: `email`, a format check (§4.1); the format itself is a
parameter. -/
def email (isEmail : String → Bool) : Validator := fun ctx =>
  match ctx.value with
  | JSVal.str s =>
    if isEmail s then ctx else addError "email" "must be a valid e-mail address" ctx
  | _ => ctx

/-- Modelled from the spec: `inclusion(set)`, a membership check (§4.1). -/
def inclusion (values : List String) : Validator := fun ctx =>
  match ctx.value with
  | JSVal.str s =>
    if values.contains s then ctx
    else addError "inclusion" "must be one of the allowed values" ctx
  | _ => addError "inclusion" "must be one of the allowed values" ctx

/-- Modelled from the spec: `iso8601`, a date-parseability check (§4.1); the parser
is a parameter. -/
def iso8601 (parseDate : String → Option Int) : Validator := fun ctx =>
  match ctx.value with
  | JSVal.str s =>
    if (parseDate s).isSome then ctx
    else addError "iso8601" "is not a valid ISO-8601 date" ctx
  | _ => ctx

/-! ## Users: records, tokens and requests -/

/-- A row of `user_account`, with the attributes the handlers read or write.
`password` is the virtual attribute written by `user.set('password', ...)`. -/
structure User where
  id : Int
  api_id : String
  email : JSVal
  first_name : JSVal
  last_name : JSVal
  active : JSVal
  role : JSVal
  password : JSVal
  password_hash : JSVal
  password_reset_count : JSVal
  deriving DecidableEq, Repr

/-- Modelled from the spec: `user.hasRole(role)`, absent from the sources; the role
of a user is one value of the enumeration "user, admin" (§3). -/
def User.hasRole (u : User) (role : String) : Bool := decide (u.role = JSVal.str role)

/-- Modelled from the spec: `User.roles`, absent from the sources: "role (enum: user,
admin)" (§3). -/
def User.roles : List String := ["user", "admin"]

/-- Modelled from the spec: `user.incrementPasswordResetCount()`, absent from the
sources; the "password-reset counter (monotonic ...)" grows by one (§3), as the
comment at its call site says. -/
def User.incrementPasswordResetCount (u : User) : User :=
  match u.password_reset_count with
  | JSVal.num n => { u with password_reset_count := JSVal.num (n + 1) }
  | _ => u

/-- The claims of a verified token (§6 "Token claims surface"). -/
structure JwtToken where
  authType : String
  sub : JSVal
  passwordResetCount : JSVal
  email : JSVal
  role : JSVal
  firstName : JSVal
  lastName : JSVal
  deriving DecidableEq, Repr

/-- What a handler reads of the request: the token, the authenticated user, the
user fetched for the route, and the parsed body. -/
structure Request where
  jwtToken : JwtToken
  currentUser : User
  user : User
  body : Body
  deriving Repr

/-- What the handlers take from outside this file: the rows found by
`new User().whereEmail(email)`, the comparison of a password with a stored hash
(`user.hasPassword`), the e-mail format of the `email` validator, and
`policy.parse(req, body, user, ...extras)` of `users.policy`. -/
structure Env where
  whereEmail : String → List User
  hasPassword : User → JSVal → Bool
  isEmail : String → Bool
  parse : Request → Body → User → List String → User

/-! ## `users.validations.js` -/

/-- The validator `validations.emailAvailable(existingUser)`. -/
def emailAvailable (env : Env) (existingUser : Option User) : Validator := fun context =>
  match context.value with
  | JSVal.str email =>
    if isBlank email then context
    else
      let query : List User := env.whereEmail email
      let query : List User := match existingUser with
        | some u => query.filter (fun (row : User) => row.id != u.id)
        | none => query
      match query.head? with
      | some _ => addError "user.emailAvailable" "is already taken" context
      | none => context
  | _ => context

/-- Modelled from the spec: `validations.previousPasswordMatches(user, jwtToken)`,
absent from the sources; by the comment at its call site it checks "that it's the
correct password", and reports a failure at `/previousPassword`. -/
def previousPasswordMatches (env : Env) (user : User) (_jwtToken : JwtToken) : Validator :=
  fun context =>
    if env.hasPassword user (context.root.get "previousPassword") then context
    else
      { context with errors := context.errors ++
          [jsonError "/previousPassword" "user.previousPassword" "is incorrect"
            (context.root.get "previousPassword") (context.root.has "previousPassword")] }

/-! ## `users.api.js` -/

/-- The branches handed to `this.parallel` by `validateUser(req, patchMode)`. -/
def userSchema (env : Env) (req : Request) (patchMode : Bool) : List Validator :=
  [ validate
      [ json "/firstName",
        if_ (fun _ => patchMode) [while_ isSet],
        required,
        type "string",
        notBlank,
        string 1 20 ],
    validate
      [ json "/lastName",
        if_ (fun _ => patchMode) [while_ isSet],
        required,
        type "string",
        notBlank,
        string 1 20 ],
    validate
      [ json "/active",
        while_ isSet,
        type "boolean" ],
    validate
      [ json "/email",
        if_ (fun _ => patchMode) [while_ isSet],
        required,
        type "string",
        notEmpty,
        email env.isEmail,
        emailAvailable env none ],
    validate
      [ json "/password",
        if_ (fun _ => patchMode) [while_ isSet],
        required,
        type "string",
        notBlank ],
    validate
      [ json "/role",
        while_ isSet,
        type "string",
        inclusion User.roles ],
    if_
      (fun context =>
        let password := context.root.get "password"
        let previousPassword := context.root.get "previousPassword"
        patchMode && password.strictNe JSVal.undefined &&
          req.jwtToken.authType != "passwordReset" &&
          (!(req.currentUser.hasRole "admin") || previousPassword.truthy))
      [ validate
          [ json "/previousPassword",
            required,
            type "string",
            notEmpty ],
        if_ (noError "/previousPassword")
          [ previousPasswordMatches env req.user req.jwtToken ] ] ]

/-- Modelled from the spec: the context `validate.requestBody(req, ...)` starts
from, absent from the sources: the request body, at the root location, with no
error. -/
def requestBody (body : Body) : Context :=
  { root := body, location := "", value := JSVal.obj, valueSet := true,
    errors := [], halted := false }

/-- The function `validateUser(req, patchMode)`: the errors of the request body. -/
def validateUser (env : Env) (req : Request) (patchMode : Bool) : List ValidationError :=
  (parallel (userSchema env req patchMode) (requestBody req.body)).errors

/-- The errors a handler can fail with. -/
inductive ApiError where
  | validation (errors : List ValidationError)
  | invalidAuthorization
  | invalidUser
  | invalidInstallation
  | invalidCredentials
  deriving DecidableEq, Repr

/-- The helper `isPasswordChange(req)` of `update`. -/
def isPasswordChange (req : Request) : Bool :=
  req.user.password_hash.truthy && (req.body.get "password").truthy

/-- The helper `isValidPasswordResetRequest(req)` of `update`. -/
def isValidPasswordResetRequest (req : Request) : Bool :=
  isPasswordChange req && req.jwtToken.authType == "passwordReset"

/-- The helper `isValidAdminPasswordChange(req)` of `update`. -/
def isValidAdminPasswordChange (req : Request) : Bool :=
  isPasswordChange req && !(req.body.get "previousPassword").truthy &&
    req.currentUser.hasRole "admin"

/-- The helper `isValidPasswordChange(req)` of `update`. -/
def isValidPasswordChange (env : Env) (req : Request) : Bool :=
  isPasswordChange req && env.hasPassword req.user (req.body.get "previousPassword")

/-- The handler `exports.update`: the user record that is saved and serialized, or
the error thrown. `req.user` is the record being updated, so the helpers that run
after `policy.parse` read the parsed record. -/
def update (env : Env) (req : Request) : Except ApiError User :=
  let user := req.user
  match validateUser env req true with
  | e :: es => Except.error (ApiError.validation (e :: es))
  | [] =>
    let checked : Except ApiError User :=
      if req.jwtToken.authType == "passwordReset" then
        let passwordResetCount := user.password_reset_count
        if !passwordResetCount.isNumber || passwordResetCount.ltZero ||
            req.jwtToken.passwordResetCount.strictNe passwordResetCount then
          Except.error ApiError.invalidAuthorization
        else
          Except.ok user.incrementPasswordResetCount
      else
        Except.ok (env.parse req req.body user [])
    match checked with
    | Except.error err => Except.error err
    | Except.ok user =>
      let req := { req with user := user }
      if isValidPasswordResetRequest req || isValidAdminPasswordChange req ||
          isValidPasswordChange env req then
        Except.ok { user with password := req.body.get "password" }
      else
        Except.ok user

/-- The assignment `body[key] = value`: the member is replaced or added. -/
def Body.set (b : Body) (key : String) (value : JSVal) : Body :=
  (key, value) :: b.filter (fun member => member.1 != key)

/-- Lodash `_.extend(body, source)`: every member of the source is assigned to the
body, whatever the body held. -/
def Body.extend (b : Body) (source : List (String × JSVal)) : Body :=
  source.foldl (fun body member => body.set member.1 member.2) b

/-- Lodash `_.defaults(body, source)`: a member of the source is assigned to the body
where the body resolves to `undefined`. -/
def Body.defaults (b : Body) (source : List (String × JSVal)) : Body :=
  source.foldl
    (fun body member =>
      if (body.get member.1).strictEq JSVal.undefined then body.set member.1 member.2
      else body) b

/-- The record `new User()`: no attribute is set. The identifier is given by the
database when the record is saved; it is 0 here. -/
def User.blank : User :=
  { id := 0, api_id := "", email := JSVal.undefined, first_name := JSVal.undefined,
    last_name := JSVal.undefined, active := JSVal.undefined, role := JSVal.undefined,
    password := JSVal.undefined, password_hash := JSVal.undefined,
    password_reset_count := JSVal.undefined }

/-- The request `exports.create` goes on with after its first block: for an
`invitation` token, `_.extend` forces `active`, `email` and `role` and `_.defaults`
completes `firstName` and `lastName` from the token. -/
def createRequest (req : Request) : Request :=
  if req.jwtToken.authType == "invitation" then
    let body := req.body.extend
      [ ("active", JSVal.bool true),
        ("email", req.jwtToken.email),
        ("role", req.jwtToken.role) ]
    let body := body.defaults
      [ ("firstName", req.jwtToken.firstName),
        ("lastName", req.jwtToken.lastName) ]
    { req with body := body }
  else req

/-- The handler `exports.create`: the user record that is saved and serialized, or
the error thrown. -/
def create (env : Env) (req : Request) : Except ApiError User :=
  let req := createRequest req
  match validateUser env req false with
  | e :: es => Except.error (ApiError.validation (e :: es))
  | [] =>
    let user := env.parse req req.body User.blank ["password"]
    Except.ok user

/-! ## Authentication (`POST /api/auth`)

The handler of this route is not among the sources; only its tests are
(`auth.api.spec.js`). It is modelled from the spec (§4.3, §4.4, §6). -/

/-- A row of `installation`, with the attributes authentication reads. -/
structure Installation where
  api_id : String
  shared_secret : String
  active : Bool
  deriving DecidableEq, Repr

/-- What authentication takes from outside this file: the persisted records, the
password comparison, the HMAC-SHA512 digest in lowercase hexadecimal (key first,
message second), the ISO-8601 parser (milliseconds since the epoch), the e-mail
format and the server time in milliseconds. -/
structure AuthEnv where
  findUserByEmail : String → Option User
  findInstallation : JSVal → Option Installation
  hasPassword : User → String → Bool
  hmacSha512Hex : String → String → String
  parseDate : String → Option Int
  isEmail : String → Bool
  now : Int

/-- The two credential schemes of `POST /auth`. -/
inductive AuthVariant where
  | password
  | installation
  deriving DecidableEq, Repr

/-- Modelled from the spec: the dispatch rule of the authentication handler, absent
from the sources: "presence of an `installation` field routes to the Installation
Verifier; otherwise (email/password shape) routes to the Password Verifier" (§4.4). -/
def authVariant (body : Body) : AuthVariant :=
  if body.has "installation" then AuthVariant.installation else AuthVariant.password

/-- Modelled from the spec: the schema of the password variant, absent from the
sources; the body is `{email, password}` (§6) and the checks are those the tests
"should not log in with no credentials" and "with invalid credentials" exhibit. -/
def passwordAuthSchema (env : AuthEnv) : List Validator :=
  [ validate
      [ json "/email",
        required,
        type "string",
        email env.isEmail ],
    validate
      [ json "/password",
        required,
        type "string",
        notBlank ] ]

/-- Modelled from the spec: the schema of the installation variant, absent from the
sources; the body is `{installation, nonce, date, authorization}` (§6) and the checks
are those the tests "should not log in with no credentials" and "with invalid
credentials" exhibit. -/
def installationAuthSchema (env : AuthEnv) : List Validator :=
  [ validate
      [ json "/nonce",
        required,
        type "string",
        notBlank ],
    validate
      [ json "/date",
        required,
        type "string",
        iso8601 env.parseDate ],
    validate
      [ json "/authorization",
        required,
        type "string",
        notBlank ] ]

/-- Modelled from the spec: step (1) of the orchestrator, "structural validation via
§4.1 schema appropriate to the variant" (§4.4). -/
def validateAuth (env : AuthEnv) (body : Body) : List ValidationError :=
  match authVariant body with
  | AuthVariant.installation =>
    (parallel (installationAuthSchema env) (requestBody body)).errors
  | AuthVariant.password =>
    (parallel (passwordAuthSchema env) (requestBody body)).errors

/-- The staleness window of installation requests: five minutes, in milliseconds. -/
def stalenessWindow : Int := 5 * 60 * 1000

/-- Modelled from the spec: the canonical string `installationId;nonce;date` that is
signed (§4.3, §6). -/
def canonicalString (installationId nonce date : String) : String :=
  installationId ++ ";" ++ nonce ++ ";" ++ date

/-- Modelled from the spec: the Password Verifier, absent from the sources (§4.3):
`InvalidUser` if there is no record or the record is inactive, `InvalidCredentials`
if the password does not match the stored hash. -/
def verifyPassword (env : AuthEnv) (body : Body) : Except ApiError User :=
  match body.get "email", body.get "password" with
  | JSVal.str email, JSVal.str password =>
    match env.findUserByEmail email with
    | none => Except.error ApiError.invalidUser
    | some user =>
      if !user.active.truthy then Except.error ApiError.invalidUser
      else if env.hasPassword user password then Except.ok user
      else Except.error ApiError.invalidCredentials
  | _, _ => Except.error ApiError.invalidCredentials

/-- Modelled from the spec: the Installation HMAC Verifier, absent from the sources
(§4.3): `InvalidInstallation` if the installation is absent or inactive;
`InvalidCredentials` if the digest recomputed over the canonical string with the
shared secret differs from the authorization, or if the date lies outside the
closed window from five minutes ago to now (§9). Replay detection is out of the
spec's scope. -/
def verifyInstallation (env : AuthEnv) (body : Body) : Except ApiError Installation :=
  match env.findInstallation (body.get "installation") with
  | none => Except.error ApiError.invalidInstallation
  | some installation =>
    if !installation.active then Except.error ApiError.invalidInstallation
    else
      match body.get "nonce", body.get "date", body.get "authorization" with
      | JSVal.str nonce, JSVal.str date, JSVal.str authorization =>
        let digest := env.hmacSha512Hex installation.shared_secret
          (canonicalString installation.api_id nonce date)
        if authorization != digest then Except.error ApiError.invalidCredentials
        else
          match env.parseDate date with
          | none => Except.error ApiError.invalidCredentials
          | some time =>
            if time < env.now - stalenessWindow || env.now < time then
              Except.error ApiError.invalidCredentials
            else Except.ok installation
      | _, _, _ => Except.error ApiError.invalidCredentials

/-- The claims of an issued token (§6). Times are in seconds. -/
structure Token where
  authType : String
  exp : Int
  iat : Int
  sub : String
  deriving DecidableEq, Repr

/-- Modelled from the spec: `issue(subject, authType, claims, ttl)` of the Token
Codec (§4.2), without the signature; `now` is in milliseconds, `ttl` in seconds. -/
def issueToken (sub authType : String) (now ttl : Int) : Token :=
  { authType := authType, exp := now / 1000 + ttl, iat := now / 1000, sub := sub }

/-- Lifetime of a user token: two weeks, in seconds (§4.2). -/
def userTokenTtl : Int := 14 * 24 * 60 * 60

/-- Lifetime of an installation token: one day, in seconds (§4.2). -/
def installationTokenTtl : Int := 24 * 60 * 60

/-- An authenticated principal (§4.4). -/
inductive Principal where
  | user (user : User)
  | installation (installation : Installation)
  deriving DecidableEq, Repr

/-- The outcome `Authenticated(token, principal)` of the orchestrator (§4.4). -/
structure Authenticated where
  principal : Principal
  token : Token
  deriving DecidableEq, Repr

/-- Modelled from the spec: the Authentication Orchestrator, absent from the sources
(§4.4): validation of the variant's schema, then the variant's verifier, then a token
whose subject is the principal's external identifier. The login bookkeeping of
step (5) is not part of the model. -/
def authenticate (env : AuthEnv) (body : Body) : Except ApiError Authenticated :=
  match validateAuth env body with
  | e :: es => Except.error (ApiError.validation (e :: es))
  | [] =>
    match authVariant body with
    | AuthVariant.installation =>
      match verifyInstallation env body with
      | Except.error err => Except.error err
      | Except.ok installation =>
        Except.ok
          { principal := Principal.installation installation,
            token := issueToken installation.api_id "installation" env.now installationTokenTtl }
    | AuthVariant.password =>
      match verifyPassword env body with
      | Except.error err => Except.error err
      | Except.ok user =>
        Except.ok
          { principal := Principal.user user,
            token := issueToken user.api_id "user" env.now userTokenTtl }


/-! ## Closed forms of the field chains

What each branch of `userSchema` reports, as a function of the member of the body it
reads. They are proved equal to the branches below and serve the proofs only. -/

/-- The error of `required` at a location. -/
def requiredError (location : String) : ValidationError :=
  jsonError location "required" "is required" JSVal.undefined false

/-- The error of `type(t)` at a location. -/
def typeError (location t : String) (value : JSVal) : ValidationError :=
  jsonError location "type" ("must be of type " ++ t) value true

/-- The context of a field chain once `json` has run. -/
def fieldContext (body : Body) (location : String) (value : JSVal) (valueSet : Bool) :
    Context :=
  { root := body, location := location, value := value, valueSet := valueSet,
    errors := [], halted := false }

/-- Closed form of the chains of `/firstName` and `/lastName`. -/
def nameFieldErrors (patchMode : Bool) (location : String) :
    Option JSVal → List ValidationError
  | none => if patchMode then [] else [requiredError location]
  | some (JSVal.str s) =>
    if isBlank s then [jsonError location "notBlank" "must not be blank" (JSVal.str s) true]
    else if jsLength s < 1 || 20 < jsLength s then
      [jsonError location "string" "must be a string of the expected length" (JSVal.str s) true]
    else []
  | some value => [typeError location "string" value]

/-- Closed form of the chain of `/active`. -/
def activeFieldErrors : Option JSVal → List ValidationError
  | none => []
  | some (JSVal.bool _) => []
  | some value => [typeError "/active" "boolean" value]

/-- Closed form of the chain of `/email`. -/
def emailFieldErrors (env : Env) (patchMode : Bool) : Option JSVal → List ValidationError
  | none => if patchMode then [] else [requiredError "/email"]
  | some (JSVal.str s) =>
    if s == "" then [jsonError "/email" "notEmpty" "must not be empty" (JSVal.str s) true]
    else if !env.isEmail s then
      [jsonError "/email" "email" "must be a valid e-mail address" (JSVal.str s) true]
    else if isBlank s then []
    else if (env.whereEmail s).head?.isSome then
      [jsonError "/email" "user.emailAvailable" "is already taken" (JSVal.str s) true]
    else []
  | some value => [typeError "/email" "string" value]

/-- Closed form of the chain of `/password`. -/
def passwordFieldErrors (patchMode : Bool) : Option JSVal → List ValidationError
  | none => if patchMode then [] else [requiredError "/password"]
  | some (JSVal.str s) =>
    if isBlank s then [jsonError "/password" "notBlank" "must not be blank" (JSVal.str s) true]
    else []
  | some value => [typeError "/password" "string" value]

/-- Closed form of the chain of `/role`. -/
def roleFieldErrors : Option JSVal → List ValidationError
  | none => []
  | some (JSVal.str s) =>
    if User.roles.contains s then []
    else [jsonError "/role" "inclusion" "must be one of the allowed values" (JSVal.str s) true]
  | some value => [typeError "/role" "string" value]

/-- The condition under which `validateUser` checks `/previousPassword`. -/
def checksPreviousPassword (req : Request) (patchMode : Bool) : Bool :=
  patchMode && (req.body.get "password").strictNe JSVal.undefined &&
    req.jwtToken.authType != "passwordReset" &&
    (!(req.currentUser.hasRole "admin") || (req.body.get "previousPassword").truthy)

/-- Closed form of the last branch of `userSchema`, on `/previousPassword`. -/
def previousPasswordErrors (env : Env) (req : Request) (patchMode : Bool) :
    List ValidationError :=
  if checksPreviousPassword req patchMode then
    match req.body.lookup "previousPassword" with
    | none => [requiredError "/previousPassword"]
    | some (JSVal.str s) =>
      if s == "" then
        [jsonError "/previousPassword" "notEmpty" "must not be empty" (JSVal.str s) true]
      else if env.hasPassword req.user (JSVal.str s) then []
      else
        [jsonError "/previousPassword" "user.previousPassword" "is incorrect" (JSVal.str s) true]
    | some value => [typeError "/previousPassword" "string" value]
  else []

/-- The locations `validateUser` declares, in the order of the schema. -/
def userLocations : List String :=
  ["/firstName", "/lastName", "/active", "/email", "/password", "/role", "/previousPassword"]

/-- The locations of the fields `validateUser` requires in create mode. -/
def requiredLocations : List String :=
  ["/firstName", "/lastName", "/email", "/password"]

/-- A list of errors that is empty or holds one error, at the given location. -/
def AtMostOneAt (location : String) (errors : List ValidationError) : Prop :=
  errors = [] ∨ ∃ e, errors = [e] ∧ e.location = location

/-- The required fields of create mode that the body lacks. -/
def missingRequired (body : Body) : List String :=
  requiredLocations.filter (fun location => !(body.has (pointerKey location)))

/-! ## Concrete inputs -/

/-- A user account used as a concrete input. -/
def sampleUser : User :=
  { id := 1, api_id := "u1", email := JSVal.str "jdoe@example.com",
    first_name := JSVal.str "John", last_name := JSVal.str "Doe",
    active := JSVal.bool true, role := JSVal.str "user", password := JSVal.undefined,
    password_hash := JSVal.str "hash", password_reset_count := JSVal.num 0 }

/-- The record of `sampleUser` once a password reset to "new" has been saved. -/
def sampleUserAfterReset : User :=
  { sampleUser with password := JSVal.str "new", password_reset_count := JSVal.num 1 }

/-- A token of the given type for `sampleUser`, with password-reset counter 0. -/
def sampleToken (authType : String) : JwtToken :=
  { authType := authType, sub := JSVal.str "u1", passwordResetCount := JSVal.num 0,
    email := JSVal.undefined, role := JSVal.undefined, firstName := JSVal.undefined,
    lastName := JSVal.undefined }

/-- An environment used as a concrete input: no e-mail is taken, the password of
every account is "old", an e-mail holds an at sign, and `policy.parse` copies the
first name. -/
def sampleEnv : Env :=
  { whereEmail := fun _ => [],
    hasPassword := fun _ password => password == JSVal.str "old",
    isEmail := fun s => s.data.contains '@',
    parse := fun _ body user _ =>
      if body.has "firstName" then { user with first_name := body.get "firstName" } else user }

/-- A request on `sampleUser` by `sampleUser`. -/
def sampleRequest (authType : String) (body : Body) : Request :=
  { jwtToken := sampleToken authType, currentUser := sampleUser, user := sampleUser,
    body := body }

/-- An installation used as a concrete input. -/
def sampleInstallation : Installation :=
  { api_id := "inst1", shared_secret := "secret", active := true }

/-- An authentication environment used as a concrete input: one installation, no
user, a stand-in for the digest, one parseable date (2024-01-01T00:00:00.000Z) and a
server time one minute later. -/
def sampleAuthEnv : AuthEnv :=
  { findUserByEmail := fun _ => none,
    findInstallation := fun id =>
      if id = JSVal.str "inst1" then some sampleInstallation else none,
    hasPassword := fun _ _ => false,
    hmacSha512Hex := fun key message => key ++ "|" ++ message,
    parseDate := fun s =>
      if s = "2024-01-01T00:00:00.000Z" then some 1704067200000 else none,
    isEmail := fun s => s.data.contains '@',
    now := 1704067260000 }

/-- A correctly signed request of `sampleInstallation`, dated one minute ago. -/
def sampleAuthBody : Body :=
  [ ("installation", JSVal.str "inst1"),
    ("nonce", JSVal.str "n1"),
    ("date", JSVal.str "2024-01-01T00:00:00.000Z"),
    ("authorization", JSVal.str "secret|inst1;n1;2024-01-01T00:00:00.000Z") ]

/-- An authentication environment used as a concrete input: `sampleUser` is the
account of jdoe@example.com and its password is "old". -/
def sampleLoginEnv : AuthEnv :=
  { findUserByEmail := fun email =>
      if email = "jdoe@example.com" then some sampleUser else none,
    findInstallation := fun _ => none,
    hasPassword := fun _ password => password == "old",
    hmacSha512Hex := fun key message => key ++ "|" ++ message,
    parseDate := fun _ => none,
    isEmail := fun s => s.data.contains '@',
    now := 1704067260000 }

/-- The credentials of `sampleUser`. -/
def sampleLoginBody : Body :=
  [ ("email", JSVal.str "jdoe@example.com"),
    ("password", JSVal.str "old") ]

/-- An administrator used as a concrete input. -/
def sampleAdmin : User :=
  { sampleUser with
    id := 2, api_id := "a1", email := JSVal.str "admin@example.com",
    role := JSVal.str "admin" }

/-- An account without a password hash, used as a concrete input. -/
def sampleUserWithoutHash : User :=
  { sampleUser with password_hash := JSVal.null }

/-- A request by `sampleAdmin` on the given account, with a `user` token. -/
def sampleAdminRequest (user : User) (body : Body) : Request :=
  { jwtToken := sampleToken "user", currentUser := sampleAdmin, user := user, body := body }

/-- A password-reset request on the given account, whose token carries the given
counter. -/
def sampleResetRequest (user : User) (count : Int) (body : Body) : Request :=
  { jwtToken := { sampleToken "passwordReset" with passwordResetCount := JSVal.num count },
    currentUser := user, user := user, body := body }

/-! ## Lemmas on the validation engine -/


/-- The slots of `parallelIn` after the branches of `order` have completed: the
branches listed hold their errors, the others still hold what they held. -/
theorem parallel_slots (vs : List Validator) (ctx : Context) (order : List Nat) :
    ∀ slots : List (List ValidationError), slots.length = vs.length →
      (order.foldl
        (fun slots i =>
          match vs[i]? with
          | some v => slots.set i (newErrors v ctx)
          | none => slots) slots).length = vs.length ∧
      ∀ i, i < vs.length →
        (order.foldl
          (fun slots i =>
            match vs[i]? with
            | some v => slots.set i (newErrors v ctx)
            | none => slots) slots)[i]? =
          if i ∈ order then (vs[i]?).map (fun v => newErrors v ctx) else slots[i]? := by
  induction order with
  | nil => intro slots h; simp [h]
  | cons j order ih =>
    intro slots h
    simp only [List.foldl_cons]
    cases hj : vs[j]? with
    | none =>
      simp only []
      obtain ⟨h1, h2⟩ := ih slots h
      refine ⟨h1, ?_⟩
      intro i hi
      rw [h2 i hi]
      have hne : i ≠ j := by
        intro hij
        subst hij
        simp [List.getElem?_eq_getElem hi] at hj
      by_cases hm : i ∈ order <;> simp [hm, hne]
    | some v =>
      simp only []
      obtain ⟨h1, h2⟩ := ih (slots.set j (newErrors v ctx)) (by simp [h])
      refine ⟨h1, ?_⟩
      intro i hi
      rw [h2 i hi]
      by_cases hm : i ∈ order
      · simp [hm]
      · by_cases hij : i = j
        · subst hij
          simp [hm, hj, List.getElem?_set, h, hi]
        · simp [hm, hij, List.getElem?_set, Ne.symm hij]

/-- Whatever the order in which the branches complete, `parallelIn` merges their
errors in declaration order. -/
theorem parallelIn_eq (vs : List Validator) (ctx : Context) (order : List Nat)
    (hall : ∀ i, i < vs.length → i ∈ order) :
    parallelIn order vs ctx =
      { ctx with errors := ctx.errors ++ (vs.map (fun v => newErrors v ctx)).flatten } := by
  unfold parallelIn
  obtain ⟨h1, h2⟩ := parallel_slots vs ctx order (List.replicate vs.length []) (by simp)
  have : (order.foldl
        (fun slots i =>
          match vs[i]? with
          | some v => slots.set i (newErrors v ctx)
          | none => slots) (List.replicate vs.length [])) = vs.map (fun v => newErrors v ctx) := by
    apply List.ext_getElem?
    intro i
    by_cases hi : i < vs.length
    · rw [h2 i hi]
      simp [hall i hi]
    · rw [List.getElem?_eq_none (by omega), List.getElem?_eq_none (by simp; omega)]
  simp only [this]

theorem parallel_eq (vs : List Validator) (ctx : Context) :
    parallel vs ctx =
      { ctx with errors := ctx.errors ++ (vs.map (fun v => newErrors v ctx)).flatten } :=
  parallelIn_eq vs ctx _ (fun _ hi => List.mem_range.mpr hi)


/-! ## Lemmas on the branches of `userSchema` -/


@[simp]
theorem jsonError_location (l v m : String) (x : JSVal) (b : Bool) :
    (jsonError l v m x b).location = l := rfl

@[simp]
theorem jsonError_validator (l v m : String) (x : JSVal) (b : Bool) :
    (jsonError l v m x b).validator = v := rfl

@[simp]
theorem jsonError_message (l v m : String) (x : JSVal) (b : Bool) :
    (jsonError l v m x b).message = m := rfl

@[simp]
theorem jsonError_valueSet (l v m : String) (x : JSVal) (b : Bool) :
    (jsonError l v m x b).valueSet = b := rfl

@[simp]
theorem jsonError_value (l v m : String) (x : JSVal) (b : Bool) :
    (jsonError l v m x b).value = x := rfl

theorem pointerKey_firstName : pointerKey "/firstName" = "firstName" := by decide
theorem pointerKey_lastName : pointerKey "/lastName" = "lastName" := by decide
theorem pointerKey_active : pointerKey "/active" = "active" := by decide
theorem pointerKey_email : pointerKey "/email" = "email" := by decide
theorem pointerKey_password : pointerKey "/password" = "password" := by decide
theorem pointerKey_role : pointerKey "/role" = "role" := by decide
theorem pointerKey_previousPassword : pointerKey "/previousPassword" = "previousPassword" := by
  decide

/-- A field chain started from the request body reports what the rest of the chain
reports once `json` has set the location. -/
theorem newErrors_validate_json (body : Body) (location : String) (vs : List Validator) :
    newErrors (validate (json location :: vs)) (requestBody body) =
      (chain vs (fieldContext body location ((body.lookup (pointerKey location)).getD JSVal.undefined)
        (body.lookup (pointerKey location)).isSome)).errors := by
  simp [newErrors, validate, chain, json, requestBody, fieldContext, hasErrorHere, Body.get,
    Body.has]

theorem nameField_errors (body : Body) (patchMode : Bool) (location : String) :
    newErrors
      (validate
        [ json location,
          if_ (fun _ => patchMode) [while_ isSet],
          required,
          type "string",
          notBlank,
          string 1 20 ]) (requestBody body) =
      nameFieldErrors patchMode location (body.lookup (pointerKey location)) := by
  rw [newErrors_validate_json]
  cases body.lookup (pointerKey location) with
  | none =>
    cases patchMode <;>
      simp [fieldContext, chain, if_, series, while_, isSet, required, addError, hasErrorHere,
        nameFieldErrors, requiredError]
  | some v =>
    cases v <;> cases patchMode <;>
      simp [fieldContext, chain, if_, series, while_, isSet, required, type, notBlank, string,
        addError, hasErrorHere, JSVal.hasType, nameFieldErrors, typeError]
    all_goals
      rename_i s
      by_cases h1 : isBlank s = true
      · simp [h1]
      · by_cases h2 : jsLength s = 0 ∨ 20 < jsLength s
        · simp [h1, h2]
        · simp [h1, h2]

theorem activeField_errors (body : Body) :
    newErrors
      (validate
        [ json "/active",
          while_ isSet,
          type "boolean" ]) (requestBody body) =
      activeFieldErrors (body.lookup "active") := by
  rw [newErrors_validate_json, pointerKey_active]
  cases body.lookup "active" with
  | none => simp [fieldContext, chain, while_, isSet, activeFieldErrors]
  | some v =>
    cases v <;>
      simp [fieldContext, chain, while_, isSet, type, addError, hasErrorHere, JSVal.hasType,
        activeFieldErrors, typeError]

theorem emailField_errors (env : Env) (body : Body) (patchMode : Bool) :
    newErrors
      (validate
        [ json "/email",
          if_ (fun _ => patchMode) [while_ isSet],
          required,
          type "string",
          notEmpty,
          email env.isEmail,
          emailAvailable env none ]) (requestBody body) =
      emailFieldErrors env patchMode (body.lookup "email") := by
  rw [newErrors_validate_json, pointerKey_email]
  cases body.lookup "email" with
  | none =>
    cases patchMode <;>
      simp [fieldContext, chain, if_, series, while_, isSet, required, addError, hasErrorHere,
        emailFieldErrors, requiredError]
  | some v =>
    cases v <;> cases patchMode <;>
      simp [fieldContext, chain, if_, series, while_, isSet, required, type, notEmpty, email,
        emailAvailable, addError, hasErrorHere, JSVal.hasType, emailFieldErrors, typeError]
    all_goals
      rename_i s
      by_cases h1 : s = ""
      · simp [h1]
      · by_cases h2 : env.isEmail s = true
        · by_cases h3 : isBlank s = true
          · simp [h1, h2, h3]
          · cases h4 : env.whereEmail s <;> simp [h1, h2, h3, h4]
        · simp [h1, h2]

theorem passwordField_errors (body : Body) (patchMode : Bool) :
    newErrors
      (validate
        [ json "/password",
          if_ (fun _ => patchMode) [while_ isSet],
          required,
          type "string",
          notBlank ]) (requestBody body) =
      passwordFieldErrors patchMode (body.lookup "password") := by
  rw [newErrors_validate_json, pointerKey_password]
  cases body.lookup "password" with
  | none =>
    cases patchMode <;>
      simp [fieldContext, chain, if_, series, while_, isSet, required, addError, hasErrorHere,
        passwordFieldErrors, requiredError]
  | some v =>
    cases v <;> cases patchMode <;>
      simp [fieldContext, chain, if_, series, while_, isSet, required, type, notBlank,
        addError, hasErrorHere, JSVal.hasType, passwordFieldErrors, typeError]
    all_goals
      rename_i s
      by_cases h1 : isBlank s = true <;> simp [h1]

theorem roleField_errors (body : Body) :
    newErrors
      (validate
        [ json "/role",
          while_ isSet,
          type "string",
          inclusion User.roles ]) (requestBody body) =
      roleFieldErrors (body.lookup "role") := by
  rw [newErrors_validate_json, pointerKey_role]
  cases body.lookup "role" with
  | none => simp [fieldContext, chain, while_, isSet, roleFieldErrors]
  | some v =>
    cases v <;>
      simp [fieldContext, chain, while_, isSet, type, inclusion, addError, hasErrorHere,
        JSVal.hasType, roleFieldErrors, typeError]
    rename_i s
    by_cases h1 : s ∈ User.roles <;> simp [h1]

theorem previousPassword_errors (env : Env) (req : Request) (patchMode : Bool) :
    newErrors
      (if_
        (fun context =>
          let password := context.root.get "password"
          let previousPassword := context.root.get "previousPassword"
          patchMode && password.strictNe JSVal.undefined &&
            req.jwtToken.authType != "passwordReset" &&
            (!(req.currentUser.hasRole "admin") || previousPassword.truthy))
        [ validate
            [ json "/previousPassword",
              required,
              type "string",
              notEmpty ],
          if_ (noError "/previousPassword")
            [ previousPasswordMatches env req.user req.jwtToken ] ]) (requestBody req.body) =
      previousPasswordErrors env req patchMode := by
  unfold previousPasswordErrors newErrors if_
  change List.drop _ (Context.errors (if checksPreviousPassword req patchMode = true then _ else _)) = _
  cases checksPreviousPassword req patchMode
  · simp [requestBody]
  · simp only [requestBody, if_true, series, validate, chain, json,
      pointerKey_previousPassword, Body.get, Body.has]
    cases hl : req.body.lookup "previousPassword" with
    | none =>
      simp [required, addError, hasErrorHere, noError, requiredError, if_]
    | some v =>
      cases v <;>
        simp [required, type, notEmpty, addError, hasErrorHere, noError, typeError,
          JSVal.hasType, previousPasswordMatches, Body.get, Body.has, hl, if_, series]
      rename_i s
      by_cases h1 : s = ""
      · simp [h1]
      · cases h2 : env.hasPassword req.user (JSVal.str s) <;> simp [h1, h2, hl]


/-- The errors of `validateUser`, branch by branch. -/
theorem validateUser_closed (env : Env) (req : Request) (patchMode : Bool) :
    validateUser env req patchMode =
      nameFieldErrors patchMode "/firstName" (req.body.lookup "firstName") ++
      (nameFieldErrors patchMode "/lastName" (req.body.lookup "lastName") ++
      (activeFieldErrors (req.body.lookup "active") ++
      (emailFieldErrors env patchMode (req.body.lookup "email") ++
      (passwordFieldErrors patchMode (req.body.lookup "password") ++
      (roleFieldErrors (req.body.lookup "role") ++
      previousPasswordErrors env req patchMode))))) := by
  unfold validateUser
  rw [parallel_eq]
  simp only [userSchema, List.map_cons, List.map_nil, List.flatten_cons, List.flatten_nil]
  rw [nameField_errors, nameField_errors, activeField_errors, emailField_errors,
    passwordField_errors, roleField_errors, previousPassword_errors]
  simp [requestBody, pointerKey_firstName, pointerKey_lastName]

theorem atMostOneAt_nil (location : String) : AtMostOneAt location [] := Or.inl rfl

theorem atMostOneAt_jsonError (location validator message : String) (value : JSVal)
    (valueSet : Bool) :
    AtMostOneAt location [jsonError location validator message value valueSet] :=
  Or.inr ⟨_, rfl, rfl⟩

theorem nameFieldErrors_atMostOne (patchMode : Bool) (location : String) (o : Option JSVal) :
    AtMostOneAt location (nameFieldErrors patchMode location o) := by
  cases o with
  | none => cases patchMode <;> simp [nameFieldErrors, requiredError, atMostOneAt_nil, atMostOneAt_jsonError]
  | some v =>
    cases v <;> simp only [nameFieldErrors, typeError, atMostOneAt_jsonError]
    split_ifs <;> simp [atMostOneAt_nil, atMostOneAt_jsonError]

theorem activeFieldErrors_atMostOne (o : Option JSVal) :
    AtMostOneAt "/active" (activeFieldErrors o) := by
  cases o with
  | none => simp [activeFieldErrors, atMostOneAt_nil]
  | some v => cases v <;> simp [activeFieldErrors, typeError, atMostOneAt_nil, atMostOneAt_jsonError]

theorem emailFieldErrors_atMostOne (env : Env) (patchMode : Bool) (o : Option JSVal) :
    AtMostOneAt "/email" (emailFieldErrors env patchMode o) := by
  cases o with
  | none => cases patchMode <;> simp [emailFieldErrors, requiredError, atMostOneAt_nil, atMostOneAt_jsonError]
  | some v =>
    cases v <;> simp only [emailFieldErrors, typeError, atMostOneAt_jsonError]
    split_ifs <;> simp [atMostOneAt_nil, atMostOneAt_jsonError]

theorem passwordFieldErrors_atMostOne (patchMode : Bool) (o : Option JSVal) :
    AtMostOneAt "/password" (passwordFieldErrors patchMode o) := by
  cases o with
  | none => cases patchMode <;> simp [passwordFieldErrors, requiredError, atMostOneAt_nil, atMostOneAt_jsonError]
  | some v =>
    cases v <;> simp only [passwordFieldErrors, typeError, atMostOneAt_jsonError]
    split_ifs <;> simp [atMostOneAt_nil, atMostOneAt_jsonError]

theorem roleFieldErrors_atMostOne (o : Option JSVal) :
    AtMostOneAt "/role" (roleFieldErrors o) := by
  cases o with
  | none => simp [roleFieldErrors, atMostOneAt_nil]
  | some v =>
    cases v <;> simp only [roleFieldErrors, typeError, atMostOneAt_jsonError]
    split_ifs <;> simp [atMostOneAt_nil, atMostOneAt_jsonError]

theorem previousPasswordErrors_atMostOne (env : Env) (req : Request) (patchMode : Bool) :
    AtMostOneAt "/previousPassword" (previousPasswordErrors env req patchMode) := by
  unfold previousPasswordErrors
  split_ifs
  · cases req.body.lookup "previousPassword" with
    | none => simp [requiredError, atMostOneAt_jsonError]
    | some v =>
      cases v <;> simp only [typeError, atMostOneAt_jsonError]
      split_ifs <;> simp [atMostOneAt_nil, atMostOneAt_jsonError]
  · exact atMostOneAt_nil _

theorem errorsAt_append (location : String) (a b : List ValidationError) :
    errorsAt location (a ++ b) = errorsAt location a ++ errorsAt location b := by
  simp [errorsAt]

theorem errorsAt_self {location : String} {errors : List ValidationError}
    (h : AtMostOneAt location errors) : errorsAt location errors = errors := by
  rcases h with h | ⟨e, h, he⟩
  · simp [errorsAt, h]
  · simp [errorsAt, h, he]

theorem errorsAt_other {location other : String} {errors : List ValidationError}
    (h : AtMostOneAt location errors) (hne : location ≠ other) :
    errorsAt other errors = [] := by
  rcases h with h | ⟨e, h, he⟩
  · simp [errorsAt, h]
  · simp [errorsAt, h, he, hne]

theorem atMostOneAt_length {location : String} {errors : List ValidationError}
    (h : AtMostOneAt location errors) : errors.length ≤ 1 := by
  rcases h with h | ⟨e, h, _⟩ <;> simp [h]

theorem atMostOneAt_sublist {location : String} {errors : List ValidationError}
    (h : AtMostOneAt location errors) :
    (errors.map (fun e => e.location)).Sublist [location] := by
  rcases h with h | ⟨e, h, he⟩
  · simp [h]
  · simp [h, he]


/-- The errors of `validateUser` at each location are those of the branch declared
for that location. -/
theorem errorsAt_validateUser (env : Env) (req : Request) (patchMode : Bool) :
    errorsAt "/firstName" (validateUser env req patchMode) =
      nameFieldErrors patchMode "/firstName" (req.body.lookup "firstName") ∧
    errorsAt "/lastName" (validateUser env req patchMode) =
      nameFieldErrors patchMode "/lastName" (req.body.lookup "lastName") ∧
    errorsAt "/active" (validateUser env req patchMode) =
      activeFieldErrors (req.body.lookup "active") ∧
    errorsAt "/email" (validateUser env req patchMode) =
      emailFieldErrors env patchMode (req.body.lookup "email") ∧
    errorsAt "/password" (validateUser env req patchMode) =
      passwordFieldErrors patchMode (req.body.lookup "password") ∧
    errorsAt "/role" (validateUser env req patchMode) =
      roleFieldErrors (req.body.lookup "role") ∧
    errorsAt "/previousPassword" (validateUser env req patchMode) =
      previousPasswordErrors env req patchMode := by
  have h1 := nameFieldErrors_atMostOne patchMode "/firstName" (req.body.lookup "firstName")
  have h2 := nameFieldErrors_atMostOne patchMode "/lastName" (req.body.lookup "lastName")
  have h3 := activeFieldErrors_atMostOne (req.body.lookup "active")
  have h4 := emailFieldErrors_atMostOne env patchMode (req.body.lookup "email")
  have h5 := passwordFieldErrors_atMostOne patchMode (req.body.lookup "password")
  have h6 := roleFieldErrors_atMostOne (req.body.lookup "role")
  have h7 := previousPasswordErrors_atMostOne env req patchMode
  rw [validateUser_closed]
  simp only [errorsAt_append]
  refine ⟨?_, ?_, ?_, ?_, ?_, ?_, ?_⟩
  · rw [errorsAt_self h1, errorsAt_other h2 (by decide), errorsAt_other h3 (by decide),
      errorsAt_other h4 (by decide), errorsAt_other h5 (by decide),
      errorsAt_other h6 (by decide), errorsAt_other h7 (by decide)]
    simp
  · rw [errorsAt_other h1 (by decide), errorsAt_self h2, errorsAt_other h3 (by decide),
      errorsAt_other h4 (by decide), errorsAt_other h5 (by decide),
      errorsAt_other h6 (by decide), errorsAt_other h7 (by decide)]
    simp
  · rw [errorsAt_other h1 (by decide), errorsAt_other h2 (by decide), errorsAt_self h3,
      errorsAt_other h4 (by decide), errorsAt_other h5 (by decide),
      errorsAt_other h6 (by decide), errorsAt_other h7 (by decide)]
    simp
  · rw [errorsAt_other h1 (by decide), errorsAt_other h2 (by decide),
      errorsAt_other h3 (by decide), errorsAt_self h4, errorsAt_other h5 (by decide),
      errorsAt_other h6 (by decide), errorsAt_other h7 (by decide)]
    simp
  · rw [errorsAt_other h1 (by decide), errorsAt_other h2 (by decide),
      errorsAt_other h3 (by decide), errorsAt_other h4 (by decide), errorsAt_self h5,
      errorsAt_other h6 (by decide), errorsAt_other h7 (by decide)]
    simp
  · rw [errorsAt_other h1 (by decide), errorsAt_other h2 (by decide),
      errorsAt_other h3 (by decide), errorsAt_other h4 (by decide),
      errorsAt_other h5 (by decide), errorsAt_self h6, errorsAt_other h7 (by decide)]
    simp
  · rw [errorsAt_other h1 (by decide), errorsAt_other h2 (by decide),
      errorsAt_other h3 (by decide), errorsAt_other h4 (by decide),
      errorsAt_other h5 (by decide), errorsAt_other h6 (by decide), errorsAt_self h7]
    simp

theorem Body.has_eq_false {b : Body} {key : String} (h : b.has key = false) :
    b.lookup key = none := by
  cases hl : b.lookup key <;> simp [Body.has, hl] at h ⊢

theorem Body.has_eq_true {b : Body} {key : String} (h : b.has key = true) :
    ∃ value, b.lookup key = some value := by
  cases hl : b.lookup key <;> simp [Body.has, hl] at h ⊢

theorem nameFieldErrors_some (patchMode : Bool) (location : String) (value : JSVal) :
    nameFieldErrors patchMode location (some value) =
      nameFieldErrors false location (some value) := by
  cases value <;> rfl

theorem emailFieldErrors_some (env : Env) (patchMode : Bool) (value : JSVal) :
    emailFieldErrors env patchMode (some value) = emailFieldErrors env false (some value) := by
  cases value <;> rfl

theorem passwordFieldErrors_some (patchMode : Bool) (value : JSVal) :
    passwordFieldErrors patchMode (some value) = passwordFieldErrors false (some value) := by
  cases value <;> rfl


theorem errorsOf_append (validator : String) (a b : List ValidationError) :
    errorsOf validator (a ++ b) = errorsOf validator a ++ errorsOf validator b := by
  simp [errorsOf]

theorem errorsOf_required_nameFieldErrors (location : String) (o : Option JSVal) :
    errorsOf "required" (nameFieldErrors false location o) =
      if o.isSome then [] else [requiredError location] := by
  cases o with
  | none => simp [nameFieldErrors, errorsOf, requiredError]
  | some v =>
    cases v <;> simp [nameFieldErrors, errorsOf, typeError]
    split_ifs <;> simp

theorem errorsOf_required_emailFieldErrors (env : Env) (o : Option JSVal) :
    errorsOf "required" (emailFieldErrors env false o) =
      if o.isSome then [] else [requiredError "/email"] := by
  cases o with
  | none => simp [emailFieldErrors, errorsOf, requiredError]
  | some v =>
    cases v <;> simp [emailFieldErrors, errorsOf, typeError]
    split_ifs <;> simp

theorem errorsOf_required_passwordFieldErrors (o : Option JSVal) :
    errorsOf "required" (passwordFieldErrors false o) =
      if o.isSome then [] else [requiredError "/password"] := by
  cases o with
  | none => simp [passwordFieldErrors, errorsOf, requiredError]
  | some v =>
    cases v <;> simp [passwordFieldErrors, errorsOf, typeError]

theorem errorsOf_required_activeFieldErrors (o : Option JSVal) :
    errorsOf "required" (activeFieldErrors o) = [] := by
  cases o with
  | none => simp [activeFieldErrors, errorsOf]
  | some v => cases v <;> simp [activeFieldErrors, errorsOf, typeError]

theorem errorsOf_required_roleFieldErrors (o : Option JSVal) :
    errorsOf "required" (roleFieldErrors o) = [] := by
  cases o with
  | none => simp [roleFieldErrors, errorsOf]
  | some v =>
    cases v <;> simp [roleFieldErrors, errorsOf, typeError]

theorem previousPasswordErrors_create (env : Env) (req : Request) :
    previousPasswordErrors env req false = [] := by
  simp [previousPasswordErrors, checksPreviousPassword]

/-- A chain that starts with `json` and `required` reports the `required` error, and
nothing else, when the body lacks the member. -/
theorem required_missing (body : Body) (location : String) (rest : List Validator)
    (h : body.has (pointerKey location) = false) :
    newErrors (validate (json location :: required :: rest)) (requestBody body) =
      [requiredError location] := by
  rw [newErrors_validate_json, Body.has_eq_false h]
  simp [fieldContext, chain, required, addError, hasErrorHere, requiredError]

/-- The errors `required` reports in create mode, one per required field that the
body lacks. -/
theorem errorsOf_required_validateUser (env : Env) (req : Request) :
    errorsOf "required" (validateUser env req false) =
      (missingRequired req.body).map requiredError := by
  rw [validateUser_closed]
  simp only [errorsOf_append, errorsOf_required_nameFieldErrors,
    errorsOf_required_emailFieldErrors, errorsOf_required_passwordFieldErrors,
    errorsOf_required_activeFieldErrors, errorsOf_required_roleFieldErrors,
    previousPasswordErrors_create, missingRequired, requiredLocations, List.filter,
    pointerKey_firstName, pointerKey_lastName, pointerKey_email, pointerKey_password,
    Body.has]
  cases (req.body.lookup "firstName").isSome <;> cases (req.body.lookup "lastName").isSome <;>
    cases (req.body.lookup "email").isSome <;> cases (req.body.lookup "password").isSome <;>
    simp [errorsOf]


/-- A chain stops at the first check that reports an error at the current location:
the checks before it passed, and those after it do not run. -/
theorem chain_first_error (pre : List Validator) (v : Validator) (post : List Validator)
    (ctx : Context) (hpre : ∀ w ∈ pre, w ctx = ctx) (hhalted : ctx.halted = false)
    (hclean : hasErrorHere ctx = false) (hfail : hasErrorHere (v ctx) = true) :
    chain (pre ++ v :: post) ctx = v ctx := by
  induction pre with
  | nil => simp [chain, hfail]
  | cons w pre ih =>
    have hw : w ctx = ctx := hpre w (List.mem_cons_self _ _)
    have ih1 := ih (fun u hu => hpre u (List.mem_cons_of_mem _ hu))
    simp only [List.cons_append, chain, hw, hhalted, hclean]
    simpa using ih1

/-- The locations of the errors of `validateUser` follow the order of the schema. -/
theorem validateUser_locations_sublist (env : Env) (req : Request) (patchMode : Bool) :
    ((validateUser env req patchMode).map (fun e => e.location)).Sublist userLocations := by
  rw [validateUser_closed]
  simp only [List.map_append]
  have h1 := atMostOneAt_sublist
    (nameFieldErrors_atMostOne patchMode "/firstName" (req.body.lookup "firstName"))
  have h2 := atMostOneAt_sublist
    (nameFieldErrors_atMostOne patchMode "/lastName" (req.body.lookup "lastName"))
  have h3 := atMostOneAt_sublist (activeFieldErrors_atMostOne (req.body.lookup "active"))
  have h4 := atMostOneAt_sublist
    (emailFieldErrors_atMostOne env patchMode (req.body.lookup "email"))
  have h5 := atMostOneAt_sublist
    (passwordFieldErrors_atMostOne patchMode (req.body.lookup "password"))
  have h6 := atMostOneAt_sublist (roleFieldErrors_atMostOne (req.body.lookup "role"))
  have h7 := atMostOneAt_sublist (previousPasswordErrors_atMostOne env req patchMode)
  exact h1.append (h2.append (h3.append (h4.append (h5.append (h6.append h7)))))


/-! ## The `validateUser` schema -/

/-- C4. Patch mode of `validateUser`: for `/firstName`, `/lastName`, `/email` and
`/password`, a field absent from the body has no error at its location; a field
present in the body has at its location the errors of create mode; and a value of the
wrong type, a blank value, a name that is too long and an ill-formed e-mail are each
reported at the location of the field. -/
theorem validateUser_patchMode (env : Env) (req : Request) :
    (∀ location ∈ requiredLocations, req.body.has (pointerKey location) = false →
      errorsAt location (validateUser env req true) = []) ∧
    (∀ location ∈ requiredLocations, req.body.has (pointerKey location) = true →
      errorsAt location (validateUser env req true) =
        errorsAt location (validateUser env req false)) ∧
    (∀ location ∈ requiredLocations, ∀ value,
      req.body.lookup (pointerKey location) = some value → value.isString = false →
      errorsAt location (validateUser env req true) =
        [jsonError location "type" "must be of type string" value true]) ∧
    (∀ location ∈ ["/firstName", "/lastName", "/password"], ∀ s,
      req.body.lookup (pointerKey location) = some (JSVal.str s) → isBlank s = true →
      errorsAt location (validateUser env req true) =
        [jsonError location "notBlank" "must not be blank" (JSVal.str s) true]) ∧
    (∀ location ∈ ["/firstName", "/lastName"], ∀ s,
      req.body.lookup (pointerKey location) = some (JSVal.str s) → isBlank s = false →
      20 < jsLength s →
      (errorsAt location (validateUser env req true)).map (fun e => e.validator) =
        ["string"]) ∧
    (∀ s, req.body.lookup "email" = some (JSVal.str s) → s ≠ "" → env.isEmail s = false →
      errorsAt "/email" (validateUser env req true) =
        [jsonError "/email" "email" "must be a valid e-mail address" (JSVal.str s) true]) := by
  obtain ⟨p1, p2, -, p4, p5, -, -⟩ := errorsAt_validateUser env req true
  obtain ⟨c1, c2, -, c4, c5, -, -⟩ := errorsAt_validateUser env req false
  refine ⟨?_, ?_, ?_, ?_, ?_, ?_⟩
  · intro location hl habs
    simp only [requiredLocations, List.mem_cons, List.mem_singleton, List.mem_nil_iff,
      or_false] at hl
    rcases hl with rfl | rfl | rfl | rfl
    · rw [p1, Body.has_eq_false (pointerKey_firstName ▸ habs)]; rfl
    · rw [p2, Body.has_eq_false (pointerKey_lastName ▸ habs)]; rfl
    · rw [p4, Body.has_eq_false (pointerKey_email ▸ habs)]; rfl
    · rw [p5, Body.has_eq_false (pointerKey_password ▸ habs)]; rfl
  · intro location hl hset
    simp only [requiredLocations, List.mem_cons, List.mem_singleton, List.mem_nil_iff,
      or_false] at hl
    rcases hl with rfl | rfl | rfl | rfl
    · obtain ⟨v, hv⟩ := Body.has_eq_true (pointerKey_firstName ▸ hset)
      rw [p1, c1, hv, nameFieldErrors_some]
    · obtain ⟨v, hv⟩ := Body.has_eq_true (pointerKey_lastName ▸ hset)
      rw [p2, c2, hv, nameFieldErrors_some]
    · obtain ⟨v, hv⟩ := Body.has_eq_true (pointerKey_email ▸ hset)
      rw [p4, c4, hv, emailFieldErrors_some]
    · obtain ⟨v, hv⟩ := Body.has_eq_true (pointerKey_password ▸ hset)
      rw [p5, c5, hv, passwordFieldErrors_some]
  · intro location hl value hv hstr
    simp only [requiredLocations, List.mem_cons, List.mem_singleton, List.mem_nil_iff,
      or_false] at hl
    rcases hl with rfl | rfl | rfl | rfl
    · rw [pointerKey_firstName] at hv; rw [p1, hv]
      cases value <;> simp_all [nameFieldErrors, typeError, JSVal.isString]
    · rw [pointerKey_lastName] at hv; rw [p2, hv]
      cases value <;> simp_all [nameFieldErrors, typeError, JSVal.isString]
    · rw [pointerKey_email] at hv; rw [p4, hv]
      cases value <;> simp_all [emailFieldErrors, typeError, JSVal.isString]
    · rw [pointerKey_password] at hv; rw [p5, hv]
      cases value <;> simp_all [passwordFieldErrors, typeError, JSVal.isString]
  · intro location hl s hv hblank
    simp only [List.mem_cons, List.mem_singleton, List.mem_nil_iff, or_false] at hl
    rcases hl with rfl | rfl | rfl
    · rw [pointerKey_firstName] at hv; rw [p1, hv]
      simp [nameFieldErrors, hblank]
    · rw [pointerKey_lastName] at hv; rw [p2, hv]
      simp [nameFieldErrors, hblank]
    · rw [pointerKey_password] at hv; rw [p5, hv]
      simp [passwordFieldErrors, hblank]
  · intro location hl s hv hblank hlong
    simp only [List.mem_cons, List.mem_singleton, List.mem_nil_iff, or_false] at hl
    rcases hl with rfl | rfl
    · rw [pointerKey_firstName] at hv; rw [p1, hv]
      simp [nameFieldErrors, hblank, hlong]
    · rw [pointerKey_lastName] at hv; rw [p2, hv]
      simp [nameFieldErrors, hblank, hlong]
  · intro s hv hne hbad
    rw [p4, hv]
    simp [emailFieldErrors, hne, hbad]

/-- C5, counterexample. In create mode the body `{"firstName": 42}` lacks three required
fields and yet has four errors, one of which is a `type` error. -/
theorem validateUser_create_errors_exceed_missing :
    (missingRequired [("firstName", JSVal.num 42)]).length = 3 ∧
    (validateUser sampleEnv (sampleRequest "user" [("firstName", JSVal.num 42)]) false).length
      = 4 ∧
    (validateUser sampleEnv (sampleRequest "user" [("firstName", JSVal.num 42)]) false).map
      (fun e => (e.location, e.validator)) =
      [("/firstName", "type"), ("/lastName", "required"), ("/email", "required"),
        ("/password", "required")] := by
  decide

/-- C5, amended. In create mode the errors of `validateUser` that come from `required`
are exactly one per required field that the body lacks, in the order of the schema,
each with message "is required" and `valueSet` false; the empty body has exactly four
errors, at `/firstName`, `/lastName`, `/email` and `/password`, and none at `/active`,
`/role` or `/previousPassword`; and in any schema a chain `json, required, ...` reports
the `required` error alone when the body lacks the member. -/
theorem validateUser_create_required_errors (env : Env) (req : Request) :
    errorsOf "required" (validateUser env req false) =
      (missingRequired req.body).map
        (fun location => jsonError location "required" "is required" JSVal.undefined false) ∧
    (errorsOf "required" (validateUser env req false)).length =
      (missingRequired req.body).length ∧
    (∀ e ∈ errorsOf "required" (validateUser env req false),
      e.validator = "required" ∧ e.message = "is required" ∧ e.valueSet = false) ∧
    validateUser env { req with body := [] } false =
      [ jsonError "/firstName" "required" "is required" JSVal.undefined false,
        jsonError "/lastName" "required" "is required" JSVal.undefined false,
        jsonError "/email" "required" "is required" JSVal.undefined false,
        jsonError "/password" "required" "is required" JSVal.undefined false ] ∧
    errorsAt "/active" (validateUser env { req with body := [] } false) = [] ∧
    errorsAt "/role" (validateUser env { req with body := [] } false) = [] ∧
    errorsAt "/previousPassword" (validateUser env { req with body := [] } false) = [] ∧
    (∀ (body : Body) (location : String) (rest : List Validator),
      body.has (pointerKey location) = false →
      newErrors (validate (json location :: required :: rest)) (requestBody body) =
        [jsonError location "required" "is required" JSVal.undefined false]) := by
  have h := errorsOf_required_validateUser env req
  have hempty : validateUser env { req with body := [] } false =
      [ jsonError "/firstName" "required" "is required" JSVal.undefined false,
        jsonError "/lastName" "required" "is required" JSVal.undefined false,
        jsonError "/email" "required" "is required" JSVal.undefined false,
        jsonError "/password" "required" "is required" JSVal.undefined false ] := by
    rw [validateUser_closed]
    simp [nameFieldErrors, activeFieldErrors, emailFieldErrors, passwordFieldErrors,
      roleFieldErrors, previousPasswordErrors_create, requiredError]
  refine ⟨h, ?_, ?_, hempty, ?_, ?_, ?_, required_missing⟩
  · rw [h]; simp
  · rw [h]
    intro e he
    simp only [List.mem_map] at he
    obtain ⟨location, -, rfl⟩ := he
    simp [requiredError]
  · rw [hempty]; decide
  · rw [hempty]; decide
  · rw [hempty]; decide

/-- C6. Every location of `validateUser` carries at most one error; a value that is
not a string at `/firstName`, `/lastName`, `/email`, `/password` or `/role` is reported
by the `type` error alone; a blank name is reported by `notBlank` alone and an empty
e-mail by `notEmpty` alone, although later checks of their chains would fail too; and
in general a chain whose first checks pass returns what its first failing check
returns, the later checks being skipped. -/
theorem validateUser_field_short_circuit (env : Env) (req : Request) (patchMode : Bool) :
    (∀ location ∈ userLocations,
      (errorsAt location (validateUser env req patchMode)).length ≤ 1) ∧
    (∀ location ∈ ["/firstName", "/lastName", "/email", "/password", "/role"], ∀ value,
      req.body.lookup (pointerKey location) = some value → value.isString = false →
      errorsAt location (validateUser env req patchMode) =
        [jsonError location "type" "must be of type string" value true]) ∧
    (∀ location ∈ ["/firstName", "/lastName"], ∀ s,
      req.body.lookup (pointerKey location) = some (JSVal.str s) → isBlank s = true →
      errorsAt location (validateUser env req patchMode) =
        [jsonError location "notBlank" "must not be blank" (JSVal.str s) true]) ∧
    (req.body.lookup "email" = some (JSVal.str "") →
      errorsAt "/email" (validateUser env req patchMode) =
        [jsonError "/email" "notEmpty" "must not be empty" (JSVal.str "") true]) ∧
    (∀ (pre : List Validator) (v : Validator) (post : List Validator) (ctx : Context),
      (∀ w ∈ pre, w ctx = ctx) → ctx.halted = false → hasErrorHere ctx = false →
      hasErrorHere (v ctx) = true → chain (pre ++ v :: post) ctx = v ctx) := by
  obtain ⟨p1, p2, p3, p4, p5, p6, p7⟩ := errorsAt_validateUser env req patchMode
  refine ⟨?_, ?_, ?_, ?_, chain_first_error⟩
  · intro location hl
    simp only [userLocations, List.mem_cons, List.mem_singleton, List.mem_nil_iff,
      or_false] at hl
    rcases hl with rfl | rfl | rfl | rfl | rfl | rfl | rfl
    · rw [p1]; exact atMostOneAt_length (nameFieldErrors_atMostOne _ _ _)
    · rw [p2]; exact atMostOneAt_length (nameFieldErrors_atMostOne _ _ _)
    · rw [p3]; exact atMostOneAt_length (activeFieldErrors_atMostOne _)
    · rw [p4]; exact atMostOneAt_length (emailFieldErrors_atMostOne _ _ _)
    · rw [p5]; exact atMostOneAt_length (passwordFieldErrors_atMostOne _ _)
    · rw [p6]; exact atMostOneAt_length (roleFieldErrors_atMostOne _)
    · rw [p7]; exact atMostOneAt_length (previousPasswordErrors_atMostOne _ _ _)
  · intro location hl value hv hstr
    simp only [List.mem_cons, List.mem_singleton, List.mem_nil_iff, or_false] at hl
    rcases hl with rfl | rfl | rfl | rfl | rfl
    · rw [pointerKey_firstName] at hv; rw [p1, hv]
      cases value <;> simp_all [nameFieldErrors, typeError, JSVal.isString]
    · rw [pointerKey_lastName] at hv; rw [p2, hv]
      cases value <;> simp_all [nameFieldErrors, typeError, JSVal.isString]
    · rw [pointerKey_email] at hv; rw [p4, hv]
      cases value <;> simp_all [emailFieldErrors, typeError, JSVal.isString]
    · rw [pointerKey_password] at hv; rw [p5, hv]
      cases value <;> simp_all [passwordFieldErrors, typeError, JSVal.isString]
    · rw [pointerKey_role] at hv; rw [p6, hv]
      cases value <;> simp_all [roleFieldErrors, typeError, JSVal.isString]
  · intro location hl s hv hblank
    simp only [List.mem_cons, List.mem_singleton, List.mem_nil_iff, or_false] at hl
    rcases hl with rfl | rfl
    · rw [pointerKey_firstName] at hv; rw [p1, hv]
      simp [nameFieldErrors, hblank]
    · rw [pointerKey_lastName] at hv; rw [p2, hv]
      simp [nameFieldErrors, hblank]
  · intro hv
    rw [p4, hv]
    simp [emailFieldErrors]

/-- C7. Whatever the order in which the branches of a parallel schema complete, the
errors are those of the declaration order; for `validateUser` the locations of the
errors follow the order `/firstName`, `/lastName`, `/active`, `/email`, `/password`,
`/role`, `/previousPassword`, and the error of `emailAvailable` is the error reported
at `/email`. -/
theorem validateUser_error_order (env : Env) (req : Request) (patchMode : Bool) :
    (∀ (validators : List Validator) (ctx : Context) (order : List Nat),
      order.Perm (List.range validators.length) →
      parallelIn order validators ctx = parallel validators ctx) ∧
    (∀ order : List Nat, order.Perm (List.range 7) →
      (parallelIn order (userSchema env req patchMode) (requestBody req.body)).errors =
        validateUser env req patchMode) ∧
    ((validateUser env req patchMode).map (fun e => e.location)).Sublist
      ["/firstName", "/lastName", "/active", "/email", "/password", "/role",
        "/previousPassword"] ∧
    (∀ s, req.body.lookup "email" = some (JSVal.str s) → env.isEmail s = true →
      isBlank s = false → env.whereEmail s ≠ [] →
      errorsAt "/email" (validateUser env req patchMode) =
        [jsonError "/email" "user.emailAvailable" "is already taken" (JSVal.str s) true]) := by
  have hgen : ∀ (validators : List Validator) (ctx : Context) (order : List Nat),
      order.Perm (List.range validators.length) →
      parallelIn order validators ctx = parallel validators ctx := by
    intro validators ctx order hperm
    rw [parallel_eq]
    exact parallelIn_eq validators ctx order
      (fun i hi => hperm.symm.subset (List.mem_range.mpr hi))
  refine ⟨hgen, ?_, validateUser_locations_sublist env req patchMode, ?_⟩
  · intro order hperm
    rw [hgen _ _ order (by simpa [userSchema] using hperm)]
    rfl
  · intro s hv hemail hblank htaken
    rw [(errorsAt_validateUser env req patchMode).2.2.2.1, hv]
    have hne : s ≠ "" := by
      intro h
      subst h
      simp [isBlank] at hblank
    cases hw : env.whereEmail s with
    | nil => exact absurd hw htaken
    | cons u us => simp [emailFieldErrors, hne, hemail, hblank, hw]

/-! ## The `update` handler -/

/-- The record `update` goes on with once a password-reset token has passed the
counter check and validation. -/
theorem update_passwordReset_ok (env : Env) (req : Request) (user : User)
    (hauth : req.jwtToken.authType = "passwordReset")
    (hrun : update env req = Except.ok user) :
    ∃ n : Int, 0 ≤ n ∧ req.user.password_reset_count = JSVal.num n ∧
      req.jwtToken.passwordResetCount = JSVal.num n ∧
      user.password_reset_count = JSVal.num (n + 1) := by
  unfold update at hrun
  cases hv : validateUser env req true with
  | cons e es => rw [hv] at hrun; simp at hrun
  | nil =>
    rw [hv] at hrun
    simp only [hauth, beq_self_eq_true, if_true] at hrun
    cases hc : req.user.password_reset_count <;> cases ht : req.jwtToken.passwordResetCount <;>
      simp [hc, ht, JSVal.isNumber, JSVal.ltZero, JSVal.strictNe, JSVal.strictEq] at hrun
    rename_i n m
    by_cases h : n < 0 ∨ ¬ m = n
    · simp [h] at hrun
    · simp only [h, if_false] at hrun
      refine ⟨n, by omega, rfl, by simp; omega, ?_⟩
      have hinc : req.user.incrementPasswordResetCount.password_reset_count = JSVal.num (n + 1) := by
        simp [User.incrementPasswordResetCount, hc]
      split_ifs at hrun <;> simp at hrun <;> subst hrun <;> simp [hinc]

/-- A password-reset token whose counter is not the persisted one is refused once
the body has passed validation. -/
theorem update_passwordReset_stale (env : Env) (req : Request)
    (hauth : req.jwtToken.authType = "passwordReset")
    (hvalid : validateUser env req true = [])
    (hstale : req.jwtToken.passwordResetCount ≠ req.user.password_reset_count) :
    update env req = Except.error ApiError.invalidAuthorization := by
  unfold update
  rw [hvalid]
  simp only [hauth, beq_self_eq_true, if_true]
  cases hc : req.user.password_reset_count <;> cases ht : req.jwtToken.passwordResetCount <;>
    simp [JSVal.isNumber, JSVal.ltZero, JSVal.strictNe, JSVal.strictEq]
  rename_i n m
  have h : n < 0 ∨ ¬ m = n := by
    right
    intro hm
    subst hm
    exact hstale (ht.trans hc.symm)
  simp [h]

/-- C1. For a request authenticated by a `passwordReset` token whose body passed
validation, `update` fails with `invalidAuthorization` exactly when the persisted
`password_reset_count` is not a number, or is negative, or is not strictly equal to the
`passwordResetCount` of the token; and whenever `update` succeeds, the counter of the
token and the persisted counter are the same non-negative number. -/
theorem update_passwordReset_invalidAuthorization_iff (env : Env) (req : Request)
    (hauth : req.jwtToken.authType = "passwordReset")
    (hvalid : validateUser env req true = []) :
    (update env req = Except.error ApiError.invalidAuthorization ↔
      (req.user.password_reset_count.isNumber = false ∨
       (∃ n : Int, req.user.password_reset_count = JSVal.num n ∧ n < 0) ∨
       req.jwtToken.passwordResetCount.strictEq req.user.password_reset_count = false)) ∧
    (∀ user, update env req = Except.ok user →
       ∃ n : Int, 0 ≤ n ∧ req.user.password_reset_count = JSVal.num n ∧
         req.jwtToken.passwordResetCount = JSVal.num n) := by
  unfold update
  rw [hvalid]
  simp only [hauth, beq_self_eq_true, if_true]
  cases hc : req.user.password_reset_count <;> cases ht : req.jwtToken.passwordResetCount <;>
    simp [JSVal.isNumber, JSVal.ltZero, JSVal.strictNe, JSVal.strictEq]
  rename_i n m
  by_cases h : n < 0 ∨ ¬ m = n
  · simp [h]
  · simp only [h, if_false]
    have h1 : 0 ≤ n := by omega
    have h2 : n = m := by omega
    constructor
    · constructor
      · intro hx; split_ifs at hx
      · intro hx; exact hx.elim
    · intro user _; exact ⟨by omega, h2⟩

/-- Witness of C1: a password reset of `sampleUser` with the current counter. -/
theorem update_passwordReset_invalidAuthorization_iff_witness :
    (update sampleEnv (sampleRequest "passwordReset" [("password", JSVal.str "new")]) = Except.error ApiError.invalidAuthorization ↔
      ((sampleRequest "passwordReset" [("password", JSVal.str "new")]).user.password_reset_count.isNumber = false ∨
       (∃ n : Int, (sampleRequest "passwordReset" [("password", JSVal.str "new")]).user.password_reset_count = JSVal.num n ∧ n < 0) ∨
       (sampleRequest "passwordReset" [("password", JSVal.str "new")]).jwtToken.passwordResetCount.strictEq (sampleRequest "passwordReset" [("password", JSVal.str "new")]).user.password_reset_count = false)) ∧
    (∀ user, update sampleEnv (sampleRequest "passwordReset" [("password", JSVal.str "new")]) = Except.ok user →
       ∃ n : Int, 0 ≤ n ∧ (sampleRequest "passwordReset" [("password", JSVal.str "new")]).user.password_reset_count = JSVal.num n ∧
         (sampleRequest "passwordReset" [("password", JSVal.str "new")]).jwtToken.passwordResetCount = JSVal.num n) :=
  update_passwordReset_invalidAuthorization_iff sampleEnv _ (by decide) (by decide)

/-- C2. When a `passwordReset` token carries the persisted counter of the user and
`update` succeeds, the record that is saved has the counter plus one, and every later
run of `update` with the same token on a record with that counter, whatever the body
that passes validation, fails with `invalidAuthorization`. -/
theorem update_passwordReset_token_single_use (env : Env) (req : Request) (user : User)
    (hauth : req.jwtToken.authType = "passwordReset")
    (hcount : req.jwtToken.passwordResetCount = req.user.password_reset_count)
    (hrun : update env req = Except.ok user) :
    (∃ n : Int, req.user.password_reset_count = JSVal.num n ∧
      user.password_reset_count = JSVal.num (n + 1)) ∧
    ∀ (env2 : Env) (req2 : Request),
      req2.jwtToken = req.jwtToken →
      req2.user.password_reset_count = user.password_reset_count →
      validateUser env2 req2 true = [] →
      update env2 req2 = Except.error ApiError.invalidAuthorization := by
  have _ := hcount
  obtain ⟨n, _, hc, ht, hu⟩ := update_passwordReset_ok env req user hauth hrun
  refine ⟨⟨n, hc, hu⟩, ?_⟩
  intro env2 req2 htok huser hvalid
  apply update_passwordReset_stale env2 req2 (by rw [htok]; exact hauth) hvalid
  rw [htok, huser, ht, hu]
  intro h
  injection h with h
  omega

/-- Witness of C2: the reset of `sampleUser` succeeds once and fails the second time. -/
theorem update_passwordReset_token_single_use_witness :
    update sampleEnv (sampleRequest "passwordReset" [("password", JSVal.str "new")]) =
      Except.ok sampleUserAfterReset ∧
    update sampleEnv
        { sampleRequest "passwordReset" [("password", JSVal.str "new")] with
          user := sampleUserAfterReset } =
      Except.error ApiError.invalidAuthorization :=
  ⟨rfl,
    (update_passwordReset_token_single_use sampleEnv
      (sampleRequest "passwordReset" [("password", JSVal.str "new")]) sampleUserAfterReset
      (by decide) (by decide) rfl).2 sampleEnv
      { sampleRequest "passwordReset" [("password", JSVal.str "new")] with
        user := sampleUserAfterReset } rfl rfl (by decide)⟩

/-- C3. For a request whose token is not a `passwordReset` token and whose current user
is not an administrator, when `req.user.hasPassword(body.previousPassword)` does not
hold the record `update` saves is the one `policy.parse` returned, password included;
whenever the saved record differs from it, the previous password was correct and the
password has been set to `body.password`; and when `policy.parse` leaves the password
alone, a request without the correct previous password leaves it unchanged. -/
theorem update_password_requires_previousPassword (env : Env) (req : Request) (user : User)
    (hauth : req.jwtToken.authType ≠ "passwordReset")
    (hadmin : req.currentUser.hasRole "admin" = false)
    (hrun : update env req = Except.ok user) :
    (env.hasPassword (env.parse req req.body req.user []) (req.body.get "previousPassword") = false →
      user = env.parse req req.body req.user []) ∧
    (user ≠ env.parse req req.body req.user [] →
      env.hasPassword (env.parse req req.body req.user []) (req.body.get "previousPassword") = true ∧
      user.password = req.body.get "password") ∧
    ((env.parse req req.body req.user []).password = req.user.password →
      env.hasPassword (env.parse req req.body req.user []) (req.body.get "previousPassword") = false →
      user.password = req.user.password) := by
  unfold update at hrun
  cases hv : validateUser env req true with
  | cons e es => rw [hv] at hrun; simp at hrun
  | nil =>
    rw [hv] at hrun
    simp only [hauth, beq_iff_eq, if_false, isValidPasswordResetRequest,
      isValidAdminPasswordChange, isValidPasswordChange, hadmin, Bool.and_false,
      Bool.false_or, Bool.or_false, decide_False] at hrun
    cases hp : env.hasPassword (env.parse req req.body req.user []) (req.body.get "previousPassword")
    · simp [hp, hauth] at hrun
      subst hrun
      simp
    · simp [hp, hauth] at hrun
      split_ifs at hrun <;> simp at hrun <;> subst hrun <;> simp

/-- Witness of C3: `sampleUser` changes their password with the correct previous
password, and changes their first name without touching the password. -/
theorem update_password_requires_previousPassword_witness :
    update sampleEnv
        (sampleRequest "user"
          [("password", JSVal.str "new"), ("previousPassword", JSVal.str "old")]) =
      Except.ok { sampleUser with password := JSVal.str "new" } ∧
    sampleEnv.hasPassword sampleUser (JSVal.str "old") = true ∧
    update sampleEnv (sampleRequest "user" [("firstName", JSVal.str "Jane")]) =
      Except.ok { sampleUser with first_name := JSVal.str "Jane" } ∧
    ({ sampleUser with first_name := JSVal.str "Jane" } : User).password = sampleUser.password :=
  ⟨rfl,
    ((update_password_requires_previousPassword sampleEnv
      (sampleRequest "user"
        [("password", JSVal.str "new"), ("previousPassword", JSVal.str "old")])
      { sampleUser with password := JSVal.str "new" } (by decide) (by decide) rfl).2.1
      (by decide)).1,
    rfl, rfl⟩

/-! ## Authentication -/

theorem pointerKey_nonce : pointerKey "/nonce" = "nonce" := by decide
theorem pointerKey_date : pointerKey "/date" = "date" := by decide
theorem pointerKey_authorization : pointerKey "/authorization" = "authorization" := by decide

/-- The validation of a body that has an `installation` member and nothing else of
the installation variant. -/
theorem validateAuth_installation_only (env : AuthEnv) (value : JSVal) :
    validateAuth env [("installation", value)] =
      [ requiredError "/nonce", requiredError "/date", requiredError "/authorization" ] := by
  have h1 : List.lookup "nonce" [("installation", value)] = none := by
    simp [List.lookup]
  have h2 : List.lookup "date" [("installation", value)] = none := by
    simp [List.lookup]
  have h3 : List.lookup "authorization" [("installation", value)] = none := by
    simp [List.lookup]
  have hv : authVariant [("installation", value)] = AuthVariant.installation := by
    simp [authVariant, Body.has, List.lookup]
  unfold validateAuth
  rw [hv]
  simp only [parallel_eq, installationAuthSchema, List.map_cons, List.map_nil,
    newErrors_validate_json, pointerKey_nonce, pointerKey_date, pointerKey_authorization,
    h1, h2, h3]
  simp [requestBody, fieldContext, chain, required, addError, hasErrorHere, requiredError]

/-- C8. The installation variant of `POST /auth` is selected exactly when the body has
an `installation` member, and the password variant otherwise; the variant selected
fixes the schema that validates the body and the verifier that runs after it; and a
body holding only `installation` has the `required` errors of `/nonce`, `/date` and
`/authorization`, and no error at `/email` or `/password`. -/
theorem auth_dispatch (env : AuthEnv) (body : Body) :
    (authVariant body = AuthVariant.installation ↔ body.has "installation" = true) ∧
    (authVariant body = AuthVariant.password ↔ body.has "installation" = false) ∧
    (body.has "installation" = true →
      validateAuth env body =
        (parallel (installationAuthSchema env) (requestBody body)).errors ∧
      (validateAuth env body = [] →
        authenticate env body =
          (verifyInstallation env body).map (fun installation =>
            { principal := Principal.installation installation,
              token := issueToken installation.api_id "installation" env.now
                installationTokenTtl }))) ∧
    (body.has "installation" = false →
      validateAuth env body = (parallel (passwordAuthSchema env) (requestBody body)).errors ∧
      (validateAuth env body = [] →
        authenticate env body =
          (verifyPassword env body).map (fun user =>
            { principal := Principal.user user,
              token := issueToken user.api_id "user" env.now userTokenTtl }))) ∧
    (∀ value : JSVal,
      validateAuth env [("installation", value)] =
        [ jsonError "/nonce" "required" "is required" JSVal.undefined false,
          jsonError "/date" "required" "is required" JSVal.undefined false,
          jsonError "/authorization" "required" "is required" JSVal.undefined false ] ∧
      errorsAt "/email" (validateAuth env [("installation", value)]) = [] ∧
      errorsAt "/password" (validateAuth env [("installation", value)]) = []) := by
  refine ⟨?_, ?_, ?_, ?_, ?_⟩
  · cases h : body.has "installation" <;> simp [authVariant, h]
  · cases h : body.has "installation" <;> simp [authVariant, h]
  · intro h
    have hv : authVariant body = AuthVariant.installation := by simp [authVariant, h]
    refine ⟨by simp [validateAuth, hv], ?_⟩
    intro hvalid
    unfold authenticate
    rw [hvalid, hv]
    cases verifyInstallation env body <;> rfl
  · intro h
    have hv : authVariant body = AuthVariant.password := by simp [authVariant, h]
    refine ⟨by simp [validateAuth, hv], ?_⟩
    intro hvalid
    unfold authenticate
    rw [hvalid, hv]
    cases verifyPassword env body <;> rfl
  · intro value
    rw [validateAuth_installation_only]
    refine ⟨rfl, ?_, ?_⟩ <;> simp [errorsAt, requiredError]


/-- The verdict of the installation verifier on a request whose nonce and date are
strings, for an active installation and a date inside the window. -/
theorem verifyInstallation_in_window (env : AuthEnv) (body : Body)
    (installation : Installation) (nonce date : String) (time : Int)
    (hfound : env.findInstallation (body.get "installation") = some installation)
    (hactive : installation.active = true)
    (hnonce : body.get "nonce" = JSVal.str nonce)
    (hdate : body.get "date" = JSVal.str date)
    (hparse : env.parseDate date = some time)
    (hwindow : env.now - stalenessWindow ≤ time ∧ time ≤ env.now) :
    verifyInstallation env body =
      if body.get "authorization" =
          JSVal.str (env.hmacSha512Hex installation.shared_secret
            (canonicalString installation.api_id nonce date)) then
        Except.ok installation
      else Except.error ApiError.invalidCredentials := by
  unfold verifyInstallation
  rw [hfound]
  simp only [hactive, Bool.not_true, Bool.false_eq_true, if_false, hnonce, hdate]
  cases ha : body.get "authorization" <;> simp
  rename_i a
  by_cases h : a = env.hmacSha512Hex installation.shared_secret
      (canonicalString installation.api_id nonce date)
  · have h1 : ¬ (time < env.now - stalenessWindow) := by omega
    have h2 : ¬ (env.now < time) := by omega
    simp [h, hparse, h1, h2]
  · simp [h]

/-- The verdict of the installation verifier on a correctly signed request of an
active installation, by the date of the request. -/
theorem verifyInstallation_signed (env : AuthEnv) (body : Body)
    (installation : Installation) (nonce date : String) (time : Int)
    (hfound : env.findInstallation (body.get "installation") = some installation)
    (hactive : installation.active = true)
    (hnonce : body.get "nonce" = JSVal.str nonce)
    (hdate : body.get "date" = JSVal.str date)
    (hsigned : body.get "authorization" =
      JSVal.str (env.hmacSha512Hex installation.shared_secret
        (canonicalString installation.api_id nonce date)))
    (hparse : env.parseDate date = some time) :
    verifyInstallation env body =
      if time < env.now - stalenessWindow ∨ env.now < time then
        Except.error ApiError.invalidCredentials
      else Except.ok installation := by
  unfold verifyInstallation
  rw [hfound]
  simp only [hactive, Bool.not_true, Bool.false_eq_true, if_false, hnonce, hdate, hsigned]
  simp [hparse]

/-- What the authentication handler answers to a valid request of the installation
variant. -/
theorem authenticate_installation (env : AuthEnv) (body : Body)
    (hbody : body.has "installation" = true) (hvalid : validateAuth env body = []) :
    authenticate env body =
      (verifyInstallation env body).map (fun installation =>
        { principal := Principal.installation installation,
          token := issueToken installation.api_id "installation" env.now
            installationTokenTtl }) := by
  have hv : authVariant body = AuthVariant.installation := by simp [authVariant, hbody]
  unfold authenticate
  rw [hvalid, hv]
  cases verifyInstallation env body <;> rfl

/-- C9, counterexample. An authorization that is the number 42 differs from the digest
and is rejected by validation, not with `invalidCredentials`; and a correctly signed
request whose nonce is blank is rejected by validation although its authorization
equals the digest. -/
theorem authenticate_unvalidated_authorization :
    authenticate sampleAuthEnv
        [ ("installation", JSVal.str "inst1"), ("nonce", JSVal.str "n1"),
          ("date", JSVal.str "2024-01-01T00:00:00.000Z"),
          ("authorization", JSVal.num 42) ] =
      Except.error (ApiError.validation
        [jsonError "/authorization" "type" "must be of type string" (JSVal.num 42) true]) ∧
    authenticate sampleAuthEnv
        [ ("installation", JSVal.str "inst1"), ("nonce", JSVal.str "   "),
          ("date", JSVal.str "2024-01-01T00:00:00.000Z"),
          ("authorization", JSVal.str (sampleAuthEnv.hmacSha512Hex "secret"
            ("inst1" ++ ";" ++ "   " ++ ";" ++ "2024-01-01T00:00:00.000Z"))) ] =
      Except.error (ApiError.validation
        [jsonError "/nonce" "notBlank" "must not be blank" (JSVal.str "   ") true]) :=
  ⟨rfl, rfl⟩

/-- A request that fails validation is answered with its validation errors: the
handler returns them before it looks at the variant or runs a verifier. -/
theorem authenticate_invalid (env : AuthEnv) (body : Body) (e : ValidationError)
    (es : List ValidationError) (h : validateAuth env body = e :: es) :
    authenticate env body = Except.error (ApiError.validation (e :: es)) := by
  unfold authenticate
  rw [h]

/-- C9, amended. For a request of the installation variant that passes validation, of
an active installation with secret S and identifier I, with nonce N and a date D inside
the window, the request is accepted when its authorization is the digest keyed by S of
"I;N;D", and rejected with `invalidCredentials` when its authorization is anything
else; and every request that fails validation is rejected with its validation errors
before any verifier runs: the answer is the same whatever the persisted records, the
password comparison, the digest and the server time are. -/
theorem installation_hmac_correct (env : AuthEnv) (body : Body) :
    (∀ (installation : Installation) (nonce date : String) (time : Int),
      body.has "installation" = true →
      validateAuth env body = [] →
      env.findInstallation (body.get "installation") = some installation →
      installation.active = true →
      body.get "nonce" = JSVal.str nonce →
      body.get "date" = JSVal.str date →
      env.parseDate date = some time →
      env.now - 5 * 60 * 1000 ≤ time ∧ time ≤ env.now →
      (body.get "authorization" =
          JSVal.str (env.hmacSha512Hex installation.shared_secret
            (installation.api_id ++ ";" ++ nonce ++ ";" ++ date)) →
        authenticate env body =
          Except.ok
            { principal := Principal.installation installation,
              token := issueToken installation.api_id "installation" env.now
                installationTokenTtl }) ∧
      (body.get "authorization" ≠
          JSVal.str (env.hmacSha512Hex installation.shared_secret
            (installation.api_id ++ ";" ++ nonce ++ ";" ++ date)) →
        authenticate env body = Except.error ApiError.invalidCredentials)) ∧
    (∀ (e : ValidationError) (es : List ValidationError),
      validateAuth env body = e :: es →
      authenticate env body = Except.error (ApiError.validation (e :: es)) ∧
      ∀ (findUserByEmail : String → Option User)
        (findInstallation : JSVal → Option Installation)
        (hasPassword : User → String → Bool)
        (hmacSha512Hex : String → String → String) (now : Int),
        authenticate
            { env with
              findUserByEmail := findUserByEmail, findInstallation := findInstallation,
              hasPassword := hasPassword, hmacSha512Hex := hmacSha512Hex, now := now }
            body =
          Except.error (ApiError.validation (e :: es))) := by
  constructor
  · intro installation nonce date time hbody hvalid hfound hactive hnonce hdate hparse hwindow
    rw [authenticate_installation env body hbody hvalid,
      verifyInstallation_in_window env body installation nonce date time hfound hactive
        hnonce hdate hparse (by simpa [stalenessWindow] using hwindow)]
    constructor
    · intro h
      rw [if_pos (by simpa [canonicalString] using h)]
      rfl
    · intro h
      rw [if_neg (by simpa [canonicalString] using h)]
      rfl
  · intro e es hinvalid
    refine ⟨authenticate_invalid env body e es hinvalid, ?_⟩
    intro findUserByEmail findInstallation hasPassword hmacSha512Hex now
    exact authenticate_invalid _ body e es hinvalid

/-- Witness of C9: the correctly signed request of `sampleInstallation` is accepted,
and the same request with the number 42 as its authorization is answered with the
`type` error of `/authorization`. -/
theorem installation_hmac_correct_witness :
    authenticate sampleAuthEnv sampleAuthBody =
      Except.ok
        { principal := Principal.installation sampleInstallation,
          token := issueToken "inst1" "installation" 1704067260000 installationTokenTtl } ∧
    authenticate sampleAuthEnv
        [ ("installation", JSVal.str "inst1"), ("nonce", JSVal.str "n1"),
          ("date", JSVal.str "2024-01-01T00:00:00.000Z"),
          ("authorization", JSVal.num 42) ] =
      Except.error (ApiError.validation
        [jsonError "/authorization" "type" "must be of type string" (JSVal.num 42) true]) :=
  ⟨((installation_hmac_correct sampleAuthEnv sampleAuthBody).1 sampleInstallation "n1"
      "2024-01-01T00:00:00.000Z" 1704067200000 (by decide) (by decide) rfl rfl rfl rfl rfl
      (by decide)).1 rfl,
    ((installation_hmac_correct sampleAuthEnv
      [ ("installation", JSVal.str "inst1"), ("nonce", JSVal.str "n1"),
        ("date", JSVal.str "2024-01-01T00:00:00.000Z"),
        ("authorization", JSVal.num 42) ]).2 _ [] (by decide)).1⟩

/-- C10. A valid and correctly signed installation request is rejected with
`invalidCredentials` when its date is more than five minutes before the server time or
after the server time, and accepted when its date lies in the last five minutes: 4 min
59 s ago is accepted, 6 min ago is rejected. -/
theorem installation_staleness_window (env : AuthEnv) (body : Body)
    (installation : Installation) (nonce date : String) (time : Int)
    (hbody : body.has "installation" = true)
    (hvalid : validateAuth env body = [])
    (hfound : env.findInstallation (body.get "installation") = some installation)
    (hactive : installation.active = true)
    (hnonce : body.get "nonce" = JSVal.str nonce)
    (hdate : body.get "date" = JSVal.str date)
    (hsigned : body.get "authorization" =
      JSVal.str (env.hmacSha512Hex installation.shared_secret
        (installation.api_id ++ ";" ++ nonce ++ ";" ++ date)))
    (hparse : env.parseDate date = some time) :
    (time < env.now - 5 * 60 * 1000 →
      authenticate env body = Except.error ApiError.invalidCredentials) ∧
    (env.now < time →
      authenticate env body = Except.error ApiError.invalidCredentials) ∧
    (env.now - 5 * 60 * 1000 ≤ time → time ≤ env.now →
      authenticate env body =
        Except.ok
          { principal := Principal.installation installation,
            token := issueToken installation.api_id "installation" env.now
              installationTokenTtl }) ∧
    (time = env.now - (4 * 60 + 59) * 1000 →
      authenticate env body =
        Except.ok
          { principal := Principal.installation installation,
            token := issueToken installation.api_id "installation" env.now
              installationTokenTtl }) ∧
    (time = env.now - 6 * 60 * 1000 →
      authenticate env body = Except.error ApiError.invalidCredentials) := by
  have hrun := authenticate_installation env body hbody hvalid
  rw [verifyInstallation_signed env body installation nonce date time hfound hactive hnonce
    hdate (by simpa [canonicalString] using hsigned) hparse] at hrun
  have hstale : ∀ h : time < env.now - stalenessWindow ∨ env.now < time,
      authenticate env body = Except.error ApiError.invalidCredentials := by
    intro h
    rw [hrun, if_pos h]
    rfl
  have hfresh : ∀ h : ¬ (time < env.now - stalenessWindow ∨ env.now < time),
      authenticate env body =
        Except.ok
          { principal := Principal.installation installation,
            token := issueToken installation.api_id "installation" env.now
              installationTokenTtl } := by
    intro h
    rw [hrun, if_neg h]
    rfl
  simp only [stalenessWindow] at hstale hfresh
  refine ⟨fun h => hstale (Or.inl h), fun h => hstale (Or.inr h), ?_, ?_, ?_⟩
  · intro h1 h2
    exact hfresh (by omega)
  · intro h
    exact hfresh (by omega)
  · intro h
    exact hstale (by omega)

/-- Witness of C10: a request dated one minute ago is accepted. -/
theorem installation_staleness_window_witness :
    authenticate sampleAuthEnv sampleAuthBody =
      Except.ok
        { principal := Principal.installation sampleInstallation,
          token := issueToken "inst1" "installation" 1704067260000 installationTokenTtl } :=
  (installation_staleness_window sampleAuthEnv sampleAuthBody sampleInstallation "n1"
    "2024-01-01T00:00:00.000Z" 1704067200000 (by decide) (by decide) rfl rfl rfl rfl rfl
    rfl).2.2.1 (by decide) (by decide)

/-- What the authentication handler answers to a valid request of the password
variant. -/
theorem authenticate_password (env : AuthEnv) (body : Body)
    (hbody : body.has "installation" = false) (hvalid : validateAuth env body = []) :
    authenticate env body =
      (verifyPassword env body).map (fun user =>
        { principal := Principal.user user,
          token := issueToken user.api_id "user" env.now userTokenTtl }) := by
  have hv : authVariant body = AuthVariant.password := by simp [authVariant, hbody]
  unfold authenticate
  rw [hvalid, hv]
  cases verifyPassword env body <;> rfl

/-- An accepted request has passed validation. -/
theorem authenticate_ok_valid (env : AuthEnv) (body : Body) (auth : Authenticated)
    (h : authenticate env body = Except.ok auth) : validateAuth env body = [] := by
  unfold authenticate at h
  cases hv : validateAuth env body with
  | nil => rfl
  | cons e es => rw [hv] at h; simp at h

/-- C11. Every successful login of the password variant issues a token of type
"user" whose subject is the `api_id` of the user and whose `exp - iat` is 14 days in
seconds, 1209600; every successful login of the installation variant issues a token
of type "installation" whose subject is the `api_id` of the installation and whose
`exp - iat` is one day in seconds, 86400. -/
theorem login_token_ttl (env : AuthEnv) (body : Body) (auth : Authenticated)
    (hlogin : authenticate env body = Except.ok auth) :
    (body.has "installation" = false →
      ∃ user, verifyPassword env body = Except.ok user ∧
        auth.principal = Principal.user user ∧
        auth.token.authType = "user" ∧ auth.token.sub = user.api_id ∧
        auth.token.exp - auth.token.iat = 1209600) ∧
    (body.has "installation" = true →
      ∃ installation, verifyInstallation env body = Except.ok installation ∧
        auth.principal = Principal.installation installation ∧
        auth.token.authType = "installation" ∧ auth.token.sub = installation.api_id ∧
        auth.token.exp - auth.token.iat = 86400) := by
  have hvalid := authenticate_ok_valid env body auth hlogin
  constructor
  · intro hbody
    rw [authenticate_password env body hbody hvalid] at hlogin
    cases hv : verifyPassword env body with
    | error err => rw [hv] at hlogin; simp [Except.map] at hlogin
    | ok user =>
      rw [hv] at hlogin
      simp only [Except.map, Except.ok.injEq] at hlogin
      subst hlogin
      exact ⟨user, rfl, rfl, rfl, rfl, by simp [issueToken, userTokenTtl]⟩
  · intro hbody
    rw [authenticate_installation env body hbody hvalid] at hlogin
    cases hv : verifyInstallation env body with
    | error err => rw [hv] at hlogin; simp [Except.map] at hlogin
    | ok installation =>
      rw [hv] at hlogin
      simp only [Except.map, Except.ok.injEq] at hlogin
      subst hlogin
      exact ⟨installation, rfl, rfl, rfl, rfl, by simp [issueToken, installationTokenTtl]⟩

/-- Witness of C11: the login of `sampleUser` and the login of `sampleInstallation`. -/
theorem login_token_ttl_witness :
    (authenticate sampleLoginEnv sampleLoginBody =
        Except.ok
          { principal := Principal.user sampleUser,
            token := { authType := "user", exp := 1704067260 + 1209600, iat := 1704067260,
                       sub := "u1" } } ∧
      ∃ user, verifyPassword sampleLoginEnv sampleLoginBody = Except.ok user ∧
        Principal.user sampleUser = Principal.user user ∧
        "user" = "user" ∧ "u1" = user.api_id ∧
        (1704067260 + 1209600 : Int) - 1704067260 = 1209600) ∧
    (authenticate sampleAuthEnv sampleAuthBody =
        Except.ok
          { principal := Principal.installation sampleInstallation,
            token := { authType := "installation", exp := 1704067260 + 86400,
                       iat := 1704067260, sub := "inst1" } } ∧
      ∃ installation,
        verifyInstallation sampleAuthEnv sampleAuthBody = Except.ok installation ∧
        Principal.installation sampleInstallation = Principal.installation installation ∧
        "installation" = "installation" ∧ "inst1" = installation.api_id ∧
        (1704067260 + 86400 : Int) - 1704067260 = 86400) :=
  ⟨⟨rfl, (login_token_ttl sampleLoginEnv sampleLoginBody _ rfl).1 (by decide)⟩,
    ⟨rfl, (login_token_ttl sampleAuthEnv sampleAuthBody _ rfl).2 (by decide)⟩⟩

/-! ## The `/previousPassword` branch of `validateUser` -/

theorem strictNe_undefined (value : JSVal) :
    value.strictNe JSVal.undefined = true ↔ value ≠ JSVal.undefined := by
  cases value <;> simp [JSVal.strictNe, JSVal.strictEq]

/-- The condition of the `/previousPassword` branch when the body has no
`previousPassword`. -/
theorem checksPreviousPassword_absent (req : Request) (patchMode : Bool)
    (habsent : req.body.lookup "previousPassword" = none) :
    checksPreviousPassword req patchMode = true ↔
      (patchMode = true ∧ req.body.get "password" ≠ JSVal.undefined ∧
        req.jwtToken.authType ≠ "passwordReset" ∧ req.currentUser.hasRole "admin" = false) := by
  have hget : req.body.get "previousPassword" = JSVal.undefined := by
    simp [Body.get, habsent]
  simp only [checksPreviousPassword, hget, JSVal.truthy, Bool.or_false, Bool.and_eq_true,
    strictNe_undefined, bne_iff_ne, ne_eq, Bool.not_eq_true']
  tauto

/-- The last branch of `userSchema` does nothing when its condition is false. -/
theorem previousPassword_branch_skipped (env : Env) (req : Request) (patchMode : Bool)
    (h : checksPreviousPassword req patchMode = false) :
    ∀ v, (userSchema env req patchMode)[6]? = some v →
      v (requestBody req.body) = requestBody req.body := by
  intro v hv
  simp only [userSchema, List.getElem?_cons_succ, List.getElem?_cons_zero,
    Option.some.injEq] at hv
  subst hv
  unfold if_
  change (if checksPreviousPassword req patchMode = true then _ else _) = _
  rw [h]
  rfl

/-- C14. `validateUser` reports a `required` error at `/previousPassword` exactly when
`patchMode` is true, the password of the body is defined, the token is not a
`passwordReset` token, the current user is not an administrator and the body has no
`previousPassword`; in create mode, for `passwordReset` tokens, and for administrators
who omit `previousPassword`, the branch of `/previousPassword` leaves the context
untouched and no error is reported at that location. -/
theorem validateUser_previousPassword_required (env : Env) (req : Request)
    (patchMode : Bool) :
    ((∃ e ∈ validateUser env req patchMode,
        e.location = "/previousPassword" ∧ e.validator = "required") ↔
      (patchMode = true ∧ req.body.get "password" ≠ JSVal.undefined ∧
        req.jwtToken.authType ≠ "passwordReset" ∧
        req.currentUser.hasRole "admin" = false ∧
        req.body.has "previousPassword" = false)) ∧
    ((patchMode = false ∨ req.jwtToken.authType = "passwordReset" ∨
        (req.currentUser.hasRole "admin" = true ∧
          req.body.has "previousPassword" = false)) →
      errorsAt "/previousPassword" (validateUser env req patchMode) = [] ∧
      ∀ v, (userSchema env req patchMode)[6]? = some v →
        v (requestBody req.body) = requestBody req.body) := by
  have hat := (errorsAt_validateUser env req patchMode).2.2.2.2.2.2
  constructor
  · have hmem : (∃ e ∈ validateUser env req patchMode,
        e.location = "/previousPassword" ∧ e.validator = "required") ↔
        ∃ e ∈ previousPasswordErrors env req patchMode, e.validator = "required" := by
      rw [← hat]
      simp only [errorsAt, List.mem_filter, beq_iff_eq]
      constructor
      · rintro ⟨e, he, hl, hv⟩
        exact ⟨e, ⟨he, hl⟩, hv⟩
      · rintro ⟨e, ⟨he, hl⟩, hv⟩
        exact ⟨e, he, hl, hv⟩
    rw [hmem]
    cases hl : req.body.lookup "previousPassword" with
    | none =>
      have hhas : req.body.has "previousPassword" = false := by simp [Body.has, hl]
      have hc := checksPreviousPassword_absent req patchMode hl
      unfold previousPasswordErrors
      rw [hl]
      cases hcc : checksPreviousPassword req patchMode
      · rw [hcc] at hc
        simp only [Bool.false_eq_true, if_false, List.not_mem_nil, false_and, exists_false,
          false_iff]
        intro h
        exact absurd (hc.mpr ⟨h.1, h.2.1, h.2.2.1, h.2.2.2.1⟩) (by simp)
      · rw [hcc] at hc
        have h := hc.mp rfl
        simp [requiredError, hhas, h.1, h.2.1, h.2.2.1, h.2.2.2]
    | some value =>
      have hhas : req.body.has "previousPassword" = true := by simp [Body.has, hl]
      unfold previousPasswordErrors
      rw [hl]
      simp only [hhas, Bool.true_eq_false, and_false, iff_false, not_exists, not_and]
      intro e he
      split_ifs at he
      · cases value <;> simp [typeError] at he <;> try (subst he; simp)
        split_ifs at he <;> simp at he <;> subst he <;> simp
      · simp at he
  · intro h
    have hc : checksPreviousPassword req patchMode = false := by
      rcases h with h | h | ⟨h1, h2⟩
      · simp [checksPreviousPassword, h]
      · simp [checksPreviousPassword, h]
      · have hget : req.body.get "previousPassword" = JSVal.undefined := by
          simp [Body.get, Body.has_eq_false h2]
        simp [checksPreviousPassword, h1, hget, JSVal.truthy]
    refine ⟨?_, previousPassword_branch_skipped env req patchMode hc⟩
    rw [hat]
    simp [previousPasswordErrors, hc]

/-! ## Password changes in `update` -/

/-- A run of `update` that succeeds has passed validation. -/
theorem update_ok_valid (env : Env) (req : Request) (user : User)
    (hrun : update env req = Except.ok user) : validateUser env req true = [] := by
  unfold update at hrun
  cases hv : validateUser env req true with
  | nil => rfl
  | cons e es => rw [hv] at hrun; simp at hrun

/-- The record `update` saves for a password-reset token that passes the counter
check, once the body has passed validation. -/
theorem update_passwordReset_eq (env : Env) (req : Request) (n : Int)
    (hauth : req.jwtToken.authType = "passwordReset")
    (hvalid : validateUser env req true = [])
    (hn : 0 ≤ n)
    (hcount : req.user.password_reset_count = JSVal.num n)
    (htoken : req.jwtToken.passwordResetCount = JSVal.num n) :
    update env req =
      Except.ok
        (if req.user.password_hash.truthy && (req.body.get "password").truthy then
          { req.user.incrementPasswordResetCount with password := req.body.get "password" }
        else req.user.incrementPasswordResetCount) := by
  have hinc : req.user.incrementPasswordResetCount.password_hash = req.user.password_hash := by
    simp [User.incrementPasswordResetCount, hcount]
  have hneg : ¬ n < 0 := by omega
  unfold update
  rw [hvalid]
  simp only [hauth, beq_self_eq_true, if_true, hcount, htoken, JSVal.isNumber, JSVal.ltZero,
    JSVal.strictNe, JSVal.strictEq, Bool.not_true, Bool.false_or, decide_eq_true_eq, hneg,
    decide_False, Bool.not_false, Bool.or_false, Bool.false_eq_true, if_false,
    isValidPasswordResetRequest, isValidAdminPasswordChange, isValidPasswordChange,
    isPasswordChange, hinc, Bool.and_true]
  cases h1 : req.user.password_hash.truthy <;> cases h2 : (req.body.get "password").truthy <;>
    simp

/-- The record `update` saves for a token that is not a password-reset token, once
the body has passed validation. -/
theorem update_parse_eq (env : Env) (req : Request)
    (hauth : req.jwtToken.authType ≠ "passwordReset")
    (hvalid : validateUser env req true = []) :
    update env req =
      Except.ok
        (if isValidAdminPasswordChange
              { req with user := env.parse req req.body req.user [] } ||
            isValidPasswordChange env
              { req with user := env.parse req req.body req.user [] } then
          { env.parse req req.body req.user [] with password := req.body.get "password" }
        else env.parse req req.body req.user []) := by
  have hb : (req.jwtToken.authType == "passwordReset") = false := by simpa using hauth
  unfold update
  rw [hvalid]
  simp only [hb, Bool.false_eq_true, if_false, isValidPasswordResetRequest, Bool.and_false,
    Bool.false_or]
  split_ifs <;> rfl

/-- C12, counterexample. An administrator sends a non-empty password and no previous
password for an account that has no password hash: validation passes, `update`
succeeds, and the password of the account is not set. -/
theorem update_admin_without_hash :
    (sampleAdminRequest sampleUserWithoutHash
        [("password", JSVal.str "new")]).currentUser.hasRole "admin" = true ∧
    validateUser sampleEnv
        (sampleAdminRequest sampleUserWithoutHash [("password", JSVal.str "new")]) true = [] ∧
    update sampleEnv
        (sampleAdminRequest sampleUserWithoutHash [("password", JSVal.str "new")]) =
      Except.ok sampleUserWithoutHash ∧
    sampleUserWithoutHash.password = JSVal.undefined :=
  ⟨by decide, by decide, rfl, rfl⟩

/-- C12, amended. For a request whose current user is an administrator, whose token
is not a `passwordReset` token and whose body has a non-empty password and no
`previousPassword`, validation reports no error at `/previousPassword`; when the body
passes validation and the account, as `policy.parse` returns it, has a password hash,
`update` succeeds and sets the password to `body.password`; when the account has no
password hash, `update` saves the parsed record as it is. -/
theorem update_admin_password_change (env : Env) (req : Request) (p : String)
    (hadmin : req.currentUser.hasRole "admin" = true)
    (hauth : req.jwtToken.authType ≠ "passwordReset")
    (hpassword : req.body.get "password" = JSVal.str p)
    (hne : p ≠ "")
    (hprev : req.body.has "previousPassword" = false) :
    errorsAt "/previousPassword" (validateUser env req true) = [] ∧
    (validateUser env req true = [] →
      (env.parse req req.body req.user []).password_hash.truthy = true →
      update env req =
        Except.ok { env.parse req req.body req.user [] with password := JSVal.str p }) ∧
    (validateUser env req true = [] →
      (env.parse req req.body req.user []).password_hash.truthy = false →
      update env req = Except.ok (env.parse req req.body req.user [])) := by
  have hget : req.body.get "previousPassword" = JSVal.undefined := by
    simp [Body.get, Body.has_eq_false hprev]
  refine ⟨?_, ?_, ?_⟩
  · rw [(errorsAt_validateUser env req true).2.2.2.2.2.2]
    simp [previousPasswordErrors, checksPreviousPassword, hadmin, hget, JSVal.truthy]
  · intro hvalid hhash
    have hp : (JSVal.str p).truthy = true := by simp [JSVal.truthy, hne]
    have hu : JSVal.undefined.truthy = false := rfl
    rw [update_parse_eq env req hauth hvalid]
    simp [isValidAdminPasswordChange, isPasswordChange, hhash, hpassword, hget, hp, hu,
      hadmin]
  · intro hvalid hhash
    rw [update_parse_eq env req hauth hvalid]
    simp [isValidAdminPasswordChange, isValidPasswordChange, isPasswordChange, hhash]

/-- Witness of C12: `sampleAdmin` sets the password of `sampleUser`. -/
theorem update_admin_password_change_witness :
    errorsAt "/previousPassword"
        (validateUser sampleEnv (sampleAdminRequest sampleUser [("password", JSVal.str "new")])
          true) = [] ∧
    update sampleEnv (sampleAdminRequest sampleUser [("password", JSVal.str "new")]) =
      Except.ok { sampleUser with password := JSVal.str "new" } :=
  ⟨(update_admin_password_change sampleEnv
      (sampleAdminRequest sampleUser [("password", JSVal.str "new")]) "new"
      (by decide) (by decide) rfl (by decide) (by decide)).1,
    (update_admin_password_change sampleEnv
      (sampleAdminRequest sampleUser [("password", JSVal.str "new")]) "new"
      (by decide) (by decide) rfl (by decide) (by decide)).2.1 (by decide) (by decide)⟩

/-- C13, counterexample. A password reset whose counter matches the persisted one, with
a non-empty password, on an account that has no password hash: `update` succeeds,
the counter grows, and the password is not set. And a token whose counter -1 matches
a persisted counter -1 is refused. -/
theorem update_passwordReset_without_hash :
    update sampleEnv
        (sampleResetRequest sampleUserWithoutHash 0 [("password", JSVal.str "new")]) =
      Except.ok { sampleUserWithoutHash with password_reset_count := JSVal.num 1 } ∧
    ({ sampleUserWithoutHash with password_reset_count := JSVal.num 1 } : User).password =
      JSVal.undefined ∧
    update sampleEnv
        (sampleResetRequest { sampleUser with password_reset_count := JSVal.num (-1) } (-1)
          [("password", JSVal.str "new")]) =
      Except.error ApiError.invalidAuthorization :=
  ⟨rfl, rfl, rfl⟩

/-- C13, amended. For a request with a `passwordReset` token whose counter is the
persisted one and whose body has a non-empty password, validation reports no error at
`/previousPassword`; when the counter is not negative, the body passes validation and
the account has a password hash, `update` succeeds and sets the password to
`body.password`; when the account has no password hash `update` only increments the
counter; when the counter is negative `update` fails with `invalidAuthorization`. -/
theorem update_passwordReset_password_change (env : Env) (req : Request) (n : Int)
    (p : String)
    (hauth : req.jwtToken.authType = "passwordReset")
    (hcount : req.user.password_reset_count = JSVal.num n)
    (htoken : req.jwtToken.passwordResetCount = JSVal.num n)
    (hpassword : req.body.get "password" = JSVal.str p)
    (hne : p ≠ "") :
    errorsAt "/previousPassword" (validateUser env req true) = [] ∧
    (0 ≤ n → validateUser env req true = [] → req.user.password_hash.truthy = true →
      update env req =
        Except.ok { req.user.incrementPasswordResetCount with password := JSVal.str p }) ∧
    (0 ≤ n → validateUser env req true = [] → req.user.password_hash.truthy = false →
      update env req = Except.ok req.user.incrementPasswordResetCount) ∧
    (n < 0 → validateUser env req true = [] →
      update env req = Except.error ApiError.invalidAuthorization) := by
  refine ⟨?_, ?_, ?_, ?_⟩
  · rw [(errorsAt_validateUser env req true).2.2.2.2.2.2]
    simp [previousPasswordErrors, checksPreviousPassword, hauth]
  · intro hn hvalid hhash
    have hp : (JSVal.str p).truthy = true := by simp [JSVal.truthy, hne]
    rw [update_passwordReset_eq env req n hauth hvalid hn hcount htoken]
    simp [hhash, hpassword, hp]
  · intro hn hvalid hhash
    rw [update_passwordReset_eq env req n hauth hvalid hn hcount htoken]
    simp [hhash]
  · intro hn hvalid
    unfold update
    rw [hvalid]
    simp [hauth, hcount, JSVal.isNumber, JSVal.ltZero, hn]

/-- Witness of C13: the password reset of `sampleUser`. -/
theorem update_passwordReset_password_change_witness :
    errorsAt "/previousPassword"
        (validateUser sampleEnv (sampleResetRequest sampleUser 0 [("password", JSVal.str "new")])
          true) = [] ∧
    update sampleEnv (sampleResetRequest sampleUser 0 [("password", JSVal.str "new")]) =
      Except.ok sampleUserAfterReset :=
  ⟨(update_passwordReset_password_change sampleEnv
      (sampleResetRequest sampleUser 0 [("password", JSVal.str "new")]) 0 "new"
      rfl rfl rfl rfl (by decide)).1,
    (update_passwordReset_password_change sampleEnv
      (sampleResetRequest sampleUser 0 [("password", JSVal.str "new")]) 0 "new"
      rfl rfl rfl rfl (by decide)).2.1 (by decide) (by decide) (by decide)⟩

/-- C16. For a request with a `passwordReset` token on which `update` succeeds, the
saved record has the identifiers, e-mail, names, active flag, role and password hash
of the record that was fetched; its password is the one it had or `body.password`;
the result does not depend on `policy.parse`; and a request that differs in other
members of the body only, and passes validation, saves the same record. -/
theorem update_passwordReset_frame (env : Env) (req : Request) (user : User)
    (hauth : req.jwtToken.authType = "passwordReset")
    (hrun : update env req = Except.ok user) :
    (user.id = req.user.id ∧ user.api_id = req.user.api_id ∧ user.email = req.user.email ∧
      user.first_name = req.user.first_name ∧ user.last_name = req.user.last_name ∧
      user.active = req.user.active ∧ user.role = req.user.role ∧
      user.password_hash = req.user.password_hash) ∧
    (user.password = req.user.password ∨ user.password = req.body.get "password") ∧
    (∀ parse : Request → Body → User → List String → User,
      update { env with parse := parse } req = Except.ok user) ∧
    (∀ req2 : Request, req2.jwtToken = req.jwtToken → req2.user = req.user →
      req2.body.get "password" = req.body.get "password" →
      validateUser env req2 true = [] → update env req2 = Except.ok user) := by
  have hvalid := update_ok_valid env req user hrun
  obtain ⟨n, hn, hcount, htoken, -⟩ := update_passwordReset_ok env req user hauth hrun
  have heq := update_passwordReset_eq env req n hauth hvalid hn hcount htoken
  have hinc : req.user.incrementPasswordResetCount =
      { req.user with password_reset_count := JSVal.num (n + 1) } := by
    simp [User.incrementPasswordResetCount, hcount]
  rw [hrun] at heq
  simp only [Except.ok.injEq] at heq
  refine ⟨?_, ?_, ?_, ?_⟩
  · rw [heq, hinc]; split_ifs <;> simp
  · rw [heq, hinc]; split_ifs <;> simp
  · intro parse
    have hvalid2 : validateUser { env with parse := parse } req true = [] := hvalid
    rw [update_passwordReset_eq { env with parse := parse } req n hauth hvalid2 hn hcount
      htoken, heq]
  · intro req2 htok huser hpw hvalid2
    rw [update_passwordReset_eq env req2 n (by rw [htok]; exact hauth) hvalid2 hn
      (by rw [huser]; exact hcount) (by rw [htok]; exact htoken), heq, huser, hpw]

/-- Witness of C16: a password reset of `sampleUser` that also sends a first name. -/
theorem update_passwordReset_frame_witness :
    update sampleEnv
        (sampleRequest "passwordReset"
          [("password", JSVal.str "new"), ("firstName", JSVal.str "Jane")]) =
      Except.ok sampleUserAfterReset ∧
    sampleUserAfterReset.first_name = sampleUser.first_name :=
  ⟨rfl,
    (update_passwordReset_frame sampleEnv
      (sampleRequest "passwordReset"
        [("password", JSVal.str "new"), ("firstName", JSVal.str "Jane")])
      sampleUserAfterReset (by decide) rfl).1.2.2.2.1⟩

/-! ## The `create` handler -/

theorem lookup_filter_ne (b : Body) (key other : String) (h : other ≠ key) :
    List.lookup other (b.filter (fun member => member.1 != key)) = List.lookup other b := by
  induction b with
  | nil => rfl
  | cons member rest ih =>
    obtain ⟨k, v⟩ := member
    by_cases hk : k = key
    · subst hk
      have hne : (other == k) = false := by simpa using h
      simp [List.filter, List.lookup, hne, ih]
    · have hk2 : (k != key) = true := by simpa using hk
      simp only [List.filter, hk2, List.lookup]
      cases other == k <;> simp [ih]

theorem Body.lookup_set_self (b : Body) (key : String) (value : JSVal) :
    List.lookup key (b.set key value) = some value := by
  simp [Body.set, List.lookup]

theorem Body.lookup_set_ne (b : Body) (key other : String) (value : JSVal) (h : other ≠ key) :
    List.lookup other (b.set key value) = List.lookup other b := by
  have hne : (other == key) = false := by simpa using h
  simp only [Body.set, List.lookup, hne]
  exact lookup_filter_ne b key other h

theorem Body.get_set_self (b : Body) (key : String) (value : JSVal) :
    (b.set key value).get key = value := by
  simp [Body.get, Body.lookup_set_self]

theorem Body.get_set_ne (b : Body) (key other : String) (value : JSVal) (h : other ≠ key) :
    (b.set key value).get other = b.get other := by
  simp [Body.get, Body.lookup_set_ne b key other value h]

theorem strictEq_undefined (value : JSVal) :
    value.strictEq JSVal.undefined = true ↔ value = JSVal.undefined := by
  cases value <;> simp [JSVal.strictEq]

theorem Body.lookup_default_ne (b : Body) (key other : String) (value : JSVal)
    (h : other ≠ key) :
    List.lookup other
        (if (b.get key).strictEq JSVal.undefined = true then b.set key value else b) =
      List.lookup other b := by
  split_ifs
  · exact Body.lookup_set_ne b key other value h
  · rfl

theorem Body.get_default_ne (b : Body) (key other : String) (value : JSVal)
    (h : other ≠ key) :
    Body.get (if (b.get key).strictEq JSVal.undefined = true then b.set key value else b)
        other =
      b.get other := by
  unfold Body.get
  rw [show (List.lookup key b).getD JSVal.undefined = b.get key from rfl,
    Body.lookup_default_ne b key other value h]

theorem Body.get_default_self (b : Body) (key : String) (value : JSVal) :
    Body.get (if (b.get key).strictEq JSVal.undefined = true then b.set key value else b)
        key =
      if b.get key = JSVal.undefined then value else b.get key := by
  by_cases h : b.get key = JSVal.undefined
  · rw [if_pos ((strictEq_undefined _).mpr h), if_pos h, Body.get_set_self]
  · have hb : ¬ (b.get key).strictEq JSVal.undefined = true :=
      fun hs => h ((strictEq_undefined _).mp hs)
    rw [if_neg hb, if_neg h]

/-- The body of `createRequest` for an `invitation` token, step by step. -/
theorem createRequest_invitation (req : Request)
    (hauth : req.jwtToken.authType = "invitation") :
    createRequest req =
      { req with
        body :=
          ((((req.body.set "active" (JSVal.bool true)).set "email" req.jwtToken.email).set
            "role" req.jwtToken.role).defaults
              [ ("firstName", req.jwtToken.firstName),
                ("lastName", req.jwtToken.lastName) ]) } := by
  simp [createRequest, hauth, Body.extend]

/-- C15. For an `invitation` token the body that `create` validates and hands to
`policy.parse` has `active` true and the e-mail and role of the token, whatever the
client sent; its `firstName` and `lastName` are those of the client where the client
defined them and those of the token otherwise; its other members are those of the
client; for every other token type the request is left as it is. -/
theorem create_invitation_body (env : Env) (req : Request) :
    (req.jwtToken.authType = "invitation" →
      (createRequest req).body.lookup "active" = some (JSVal.bool true) ∧
      (createRequest req).body.lookup "email" = some req.jwtToken.email ∧
      (createRequest req).body.lookup "role" = some req.jwtToken.role ∧
      (createRequest req).body.get "firstName" =
        (if req.body.get "firstName" = JSVal.undefined then req.jwtToken.firstName
         else req.body.get "firstName") ∧
      (createRequest req).body.get "lastName" =
        (if req.body.get "lastName" = JSVal.undefined then req.jwtToken.lastName
         else req.body.get "lastName") ∧
      (∀ key, key ∉ ["active", "email", "role", "firstName", "lastName"] →
        (createRequest req).body.lookup key = req.body.lookup key)) ∧
    (req.jwtToken.authType ≠ "invitation" → createRequest req = req) ∧
    (∀ e es, validateUser env (createRequest req) false = e :: es →
      create env req = Except.error (ApiError.validation (e :: es))) ∧
    (validateUser env (createRequest req) false = [] →
      create env req =
        Except.ok
          (env.parse (createRequest req) (createRequest req).body User.blank ["password"])) := by
  refine ⟨?_, ?_, ?_, ?_⟩
  · intro hauth
    rw [createRequest_invitation req hauth]
    simp only [Body.defaults, List.foldl_cons, List.foldl_nil]
    refine ⟨?_, ?_, ?_, ?_, ?_, ?_⟩
    · rw [Body.lookup_default_ne _ _ _ _ (by decide), Body.lookup_default_ne _ _ _ _ (by decide),
        Body.lookup_set_ne _ _ _ _ (by decide), Body.lookup_set_ne _ _ _ _ (by decide),
        Body.lookup_set_self]
    · rw [Body.lookup_default_ne _ _ _ _ (by decide), Body.lookup_default_ne _ _ _ _ (by decide),
        Body.lookup_set_ne _ _ _ _ (by decide), Body.lookup_set_self]
    · rw [Body.lookup_default_ne _ _ _ _ (by decide), Body.lookup_default_ne _ _ _ _ (by decide),
        Body.lookup_set_self]
    · rw [Body.get_default_ne _ _ _ _ (by decide), Body.get_default_self,
        Body.get_set_ne _ _ _ _ (by decide), Body.get_set_ne _ _ _ _ (by decide),
        Body.get_set_ne _ _ _ _ (by decide)]
    · rw [Body.get_default_self, Body.get_default_ne _ _ _ _ (by decide),
        Body.get_set_ne _ _ _ _ (by decide), Body.get_set_ne _ _ _ _ (by decide),
        Body.get_set_ne _ _ _ _ (by decide)]
    · intro key hkey
      simp only [List.mem_cons, List.mem_singleton, List.mem_nil_iff, or_false,
        not_or] at hkey
      obtain ⟨k1, k2, k3, k4, k5⟩ := hkey
      rw [Body.lookup_default_ne _ _ _ _ k5, Body.lookup_default_ne _ _ _ _ k4,
        Body.lookup_set_ne _ _ _ _ k3, Body.lookup_set_ne _ _ _ _ k2,
        Body.lookup_set_ne _ _ _ _ k1]
  · intro hauth
    have hb : (req.jwtToken.authType == "invitation") = false := by simpa using hauth
    simp [createRequest, hb]
  · intro e es hv
    unfold create
    simp only [hv]
  · intro hv
    unfold create
    simp only [hv]

end Biosentiers
